import Mathlib

/-!
# OpenApoc agent missions: tile traversal legality and mission life cycle

A shallow embedding of `game/state/city/agentmission.cpp`, and of the track
lookup of `game/apocresources/music.cpp`.

Conventions of the embedding

* `Vec3<int>` is a record of three mathematical integers.  Tile coordinates are
  bounded by the map size, so no 32-bit wrap-around is reachable in the
  coordinate arithmetic of this file.
* `unsigned int` values (`timeToSnooze`, `ticks`) are naturals below `2 ^ 32`;
  the one subtraction on them is written modulo `2 ^ 32`.
* A C++ evaluation that has no defined result (reading `tube[dir]` outside
  `0..5`, `TileMap::getTile` outside the map, a `std::vector` subscript past
  the end) is `none`.
* `Vec3<float>` values are records of rationals, the values floats take.  The
  arithmetic of the box form of `getDistance` rounds after every operation:
  the rounding is a parameter of the embedding, and `binary32` is the
  rounding of single precision.  The centre of a cell, a tile coordinate plus
  one half, is a float for every tile coordinate and is written without
  rounding.
* Pointers that may be null (`Tile *`, `sp<Scenery>`, `StateRef<Building>`) are
  `Option`s.
* The `float &cost` output parameter is passed through explicitly: the
  function receives the old content of the variable and returns the new one.
  The value stored is the squared length of the displacement (an exact
  integer), standing for the float `glm::length` computes from it.
-/

namespace OpenApoc

/-! ## Geometry -/

/-- The `Vec3<int>` of the source. -/
structure Vec3 where
  x : Int
  y : Int
  z : Int
deriving DecidableEq, Repr

namespace Vec3

/-- Componentwise difference, `a - b` on `Vec3<int>`. -/
def sub (a b : Vec3) : Vec3 := ⟨a.x - b.x, a.y - b.y, a.z - b.z⟩

/-- Componentwise negation, `-a` on `Vec3<int>`. -/
def neg (a : Vec3) : Vec3 := ⟨-a.x, -a.y, -a.z⟩

instance : Sub Vec3 := ⟨sub⟩
instance : Neg Vec3 := ⟨neg⟩

/-- Squared Euclidean length; `glm::length` is its square root. -/
def lengthSq (a : Vec3) : Int := a.x * a.x + a.y * a.y + a.z * a.z

end Vec3

/-- The `std::abs` of the source on `int`. -/
def intAbs (i : Int) : Int := if i < 0 then -i else i

/-- The `Vec3<float>` of the source, over exact rationals. -/
structure Vec3f where
  x : ℚ
  y : ℚ
  z : ℚ

/-- The centre of a cell, `Vec3<float>{pos.x, pos.y, pos.z} + offset` with
`offset = {0.5, 0.5, 0.5}` (lines 452, 501). -/
def tileCentre (pos : Vec3) : Vec3f :=
  ⟨(pos.x : ℚ) + 1 / 2, (pos.y : ℚ) + 1 / 2, (pos.z : ℚ) + 1 / 2⟩

/-- The test of lines 470-471: some coordinate differs by more than one. -/
def farApart (a b : Vec3) : Bool :=
  decide (intAbs (a.x - b.x) > 1) || decide (intAbs (a.y - b.y) > 1) ||
    decide (intAbs (a.z - b.z) > 1)

/-- The test of lines 491-492: every coordinate differs by at most one. -/
def withinOne (a b : Vec3) : Bool :=
  decide (intAbs (a.x - b.x) ≤ 1) && decide (intAbs (a.y - b.y) ≤ 1) &&
    decide (intAbs (a.z - b.z) ≤ 1)

/-! ## Scenery, tiles and the map -/

/-- A `StateRef<Building>`: `none` is the null reference, `some id` names a building. -/
abbrev StateRef := Option String

/-- The enumeration `SceneryTileType::TileType`. -/
inductive TileType where
  | General
  | Road
  | PeopleTube
  | PeopleTubeJunction
  | CityWall
deriving DecidableEq, Repr

/-- The part of `SceneryTileType` read by the traversal helper: the tile type
and the six-entry connectivity mask `bool tube[6]`. -/
structure SceneryTileType where
  tile_type : TileType
  tube : Fin 6 → Bool

/-- The part of `Scenery` read by the traversal helper. -/
structure Scenery where
  type : SceneryTileType
  damaged : Bool
  falling : Bool
  building : StateRef
  currentPosition : Vec3

/-- An object owned by a tile.  Only objects whose `getType()` is
`TileObject::Type::Scenery` matter here; they carry the weak reference
`scenery`, whose `lock()` yields a scenery or null. -/
inductive TileObject where
  | Scenery (scenery : Option Scenery)
  | Other

/-- A map cell: its position and the objects it owns, in iteration order. -/
structure Tile where
  position : Vec3
  ownedObjects : List TileObject

/-- Modelled from the spec: the `TileMap` class (its header is not part of the
sources at hand).  The map owns a 3-D grid of tiles of extent `size` and
exposes a validity check for a coordinate and a tile lookup by coordinate. -/
structure TileMap where
  size : Vec3
  tiles : Vec3 → Tile

namespace TileMap

/-- Modelled from the spec: `TileMap::tileIsValid`, the validity check for a
coordinate: every component lies in `0 .. size - 1`. -/
def tileIsValid (map : TileMap) (pos : Vec3) : Bool :=
  decide (0 ≤ pos.x) && decide (pos.x < map.size.x) &&
  decide (0 ≤ pos.y) && decide (pos.y < map.size.y) &&
  decide (0 ≤ pos.z) && decide (pos.z < map.size.z)

/-- Modelled from the spec: `TileMap::getTile`, the tile lookup by coordinate.
A lookup outside the grid has no defined result. -/
def getTile (map : TileMap) (pos : Vec3) : Option Tile :=
  if map.tileIsValid pos then some (map.tiles pos) else none

end TileMap

/-- The loop `for (auto &obj : tile->ownedObjects)` that picks the first object
of type `Scenery` and locks its weak reference (lines 70-78, 79-87, 122-131). -/
def firstScenery : List TileObject → Option Scenery
  | [] => none
  | TileObject.Scenery s :: _ => s
  | TileObject.Other :: rest => firstScenery rest

namespace AgentTileHelper

/-! ## Direction codes and per-scenery legality -/

/-- Embedding of `AgentTileHelper::convertDirection` (lines 166-195). -/
def convertDirection (dir : Vec3) : Int :=
  if dir.y = -1 then 0
  else if dir.x = 1 then 1
  else if dir.y = 1 then 2
  else if dir.x = -1 then 3
  else if dir.z = 1 then 4
  else if dir.z = -1 then 5
  else -1

/-- The array read `tube[dir]` on `bool tube[6]`; outside `0..5` it has no
defined value. -/
def tubeAt (tube : Fin 6 → Bool) (dir : Int) : Option Bool :=
  if h : 0 ≤ dir ∧ dir < 6 then some (tube ⟨dir.toNat, by omega⟩) else none

/-- Embedding of `AgentTileHelper::isMoveAllowed` (lines 207-227). -/
def isMoveAllowed (scenery : Scenery) (dir : Int) : Option Bool :=
  match scenery.type.tile_type with
  | TileType.PeopleTube => tubeAt scenery.type.tube dir
  | TileType.PeopleTubeJunction =>
    match tubeAt scenery.type.tube dir with
    | none => none
    | some b => some (b || decide (dir = 4) || decide (dir = 5))
  | TileType.General => some scenery.building.isSome
  | TileType.Road => some scenery.building.isSome
  | TileType.CityWall => some false

/-- The rule for `isTraversalAllowed` as the specification words it, on a
direction code in `0..5`. -/
def isTraversalAllowedSpec (scenery : Scenery) (d : Fin 6) : Bool :=
  match scenery.type.tile_type with
  | TileType.PeopleTube => scenery.type.tube d
  | TileType.PeopleTubeJunction => scenery.type.tube d || decide (d.val = 4 ∨ d.val = 5)
  | TileType.General => scenery.building.isSome
  | TileType.Road => scenery.building.isSome
  | TileType.CityWall => false

/-! ## `canEnterTile` -/

/-- The `do ... while (!foundJunction)` loop of lines 112-137, started with
`checkedPos`; the result is the final value of `foundJunction`.  Each round
increments `checkedPos.z`, leaves with `false` once it reaches `map.size.z`,
and otherwise inspects the first scenery of the tile at `checkedPos`. -/
def junctionScan (map : TileMap) (checkedPos : Vec3) : Option Bool :=
  let next : Vec3 := ⟨checkedPos.x, checkedPos.y, checkedPos.z + 1⟩
  if map.size.z ≤ next.z then some false
  else
    match map.getTile next with
    | none => none
    | some checkedTile =>
      match firstScenery checkedTile.ownedObjects with
      | some checkedScenery =>
        if checkedScenery.type.tile_type = TileType.PeopleTubeJunction then some true
        else junctionScan map next
      | none => junctionScan map next
termination_by (map.size.z - checkedPos.z).toNat
decreasing_by all_goals (simp_wf; simp only [next] at *; omega)

/-- Embedding of the full `AgentTileHelper::canEnterTile` (lines 37-146).
`cost` is the content of the output variable before the call; the result is
the returned flag together with the content of the variable afterwards. -/
def canEnterTile (map : TileMap) (tFrom tTo : Option Tile) (cost : Int) :
    Option (Bool × Int) :=
  match tFrom with
  | none => some (false, cost)
  | some fromTile =>
    let fromPos := fromTile.position
    match tTo with
    | none => some (false, cost)
    | some toTile =>
      let toPos := toTile.position
      if fromPos = toPos then some (false, cost)
      else if !map.tileIsValid toPos then some (false, cost)
      else
        let dir := toPos - fromPos
        if intAbs dir.x + intAbs dir.y + intAbs dir.z > 1 then some (false, cost)
        else
          match firstScenery fromTile.ownedObjects, firstScenery toTile.ownedObjects with
          | some sceneryFrom, some sceneryTo =>
            if sceneryFrom.damaged || sceneryTo.damaged ||
                sceneryFrom.falling || sceneryTo.falling then some (false, cost)
            else
              let forward := convertDirection dir
              match isMoveAllowed sceneryFrom forward with
              | none => none
              | some false => some (false, cost)
              | some true =>
                match isMoveAllowed sceneryTo (convertDirection (-dir)) with
                | none => none
                | some false => some (false, cost)
                | some true =>
                  if forward < 4 ∧
                      sceneryFrom.type.tile_type = TileType.PeopleTubeJunction ∧
                      sceneryTo.type.tile_type ≠ TileType.PeopleTubeJunction ∧
                      sceneryTo.type.tile_type ≠ TileType.PeopleTube then some (false, cost)
                  else if forward = 4 ∧ sceneryTo.type.tile_type = TileType.General then
                    match junctionScan map sceneryTo.currentPosition with
                    | none => none
                    | some false => some (false, cost)
                    | some true => some (true, (fromPos - toPos).lengthSq)
                  else some (true, (fromPos - toPos).lengthSq)
          | _, _ => some (false, cost)

/-- Embedding of the forwarding overload of `canEnterTile` (lines 26-33): the
cost variable is a local whose content is discarded. -/
def canEnterTileFlag (map : TileMap) (tFrom tTo : Option Tile) (nothing : Int) : Option Bool :=
  (canEnterTile map tFrom tTo nothing).map Prod.fst

/-- A displacement is a single-axis unit step when exactly one component is
nonzero and that component is `1` or `-1`. -/
def isUnitStep (d : Vec3) : Prop :=
  (d.x = 1 ∨ d.x = -1) ∧ d.y = 0 ∧ d.z = 0 ∨
  d.x = 0 ∧ (d.y = 1 ∨ d.y = -1) ∧ d.z = 0 ∨
  d.x = 0 ∧ d.y = 0 ∧ (d.z = 1 ∨ d.z = -1)

instance (d : Vec3) : Decidable (isUnitStep d) := by
  unfold isUnitStep; infer_instance

/-- The tile of the map at `pos` holds a `PeopleTubeJunction`: the lookup
succeeds and the first scenery of that tile has that type. -/
def holdsJunction (map : TileMap) (pos : Vec3) : Bool :=
  match map.getTile pos with
  | none => false
  | some tile =>
    match firstScenery tile.ownedObjects with
    | none => false
    | some s => decide (s.type.tile_type = TileType.PeopleTubeJunction)

/-- The direction code opposite to `d`: 0 and 2, 1 and 3, 4 and 5 are paired. -/
def opposite (d : Fin 6) : Fin 6 :=
  match d with
  | 0 => 2
  | 1 => 3
  | 2 => 0
  | 3 => 1
  | 4 => 5
  | 5 => 4

/-! ## Distances -/

/-- Rounding of a rational to the nearest integer, ties to the even one. -/
def roundHalfEven (q : ℚ) : Int :=
  if q - (⌊q⌋ : ℚ) < 1 / 2 then ⌊q⌋
  else if q - (⌊q⌋ : ℚ) > 1 / 2 then ⌊q⌋ + 1
  else if ⌊q⌋ % 2 = 0 then ⌊q⌋ else ⌊q⌋ + 1

/-- Rounding to single precision: the nearest number with 24 significant binary
digits, ties to the one with an even last digit.  The exponent range of the
format is not modelled (no overflow to infinity, no subnormal numbers). -/
def binary32 (q : ℚ) : ℚ :=
  if q = 0 then 0
  else (roundHalfEven (q * (2 : ℚ) ^ (23 - Int.log 2 |q|)) : ℚ) * (2 : ℚ) ^ (Int.log 2 |q| - 23)

/-- What the theorems on `getDistance` use of a rounding `rnd`: an integer of
magnitude at most `2 ^ 24` is a float, so it is its own rounding. -/
def roundsIntegersExactly (rnd : ℚ → ℚ) : Prop :=
  ∀ n : Int, -16777216 ≤ n → n ≤ 16777216 → rnd (n : ℚ) = (n : ℚ)

/-- The conversion `Vec3<float>{v}` of a `Vec3<int>`. -/
def toFloat (v : Vec3) : Vec3f := ⟨(v.x : ℚ), (v.y : ℚ), (v.z : ℚ)⟩

/-- Every coordinate lies in `-1000 .. 1000`. -/
def tileRange (v : Vec3) : Prop :=
  (-1000 ≤ v.x ∧ v.x ≤ 1000) ∧ (-1000 ≤ v.y ∧ v.y ≤ 1000) ∧ (-1000 ≤ v.z ∧ v.z ≤ 1000)

instance (v : Vec3) : Decidable (tileRange v) := by
  unfold tileRange; infer_instance

/-- The offset of one axis in the box form of `getDistance` (lines 155-162):
`fromC`, `startC` and `endC` are the coordinates of `from`, `toStart` and
`toEnd` on that axis, `rnd` rounds the result of each float operation.
`diffStart` is `toStart - from`, `diffEnd` is `toEnd - from - 1.0f`. -/
def axisDiff (rnd : ℚ → ℚ) (fromC startC endC : ℚ) : ℚ :=
  let diffStart := rnd (startC - fromC)
  let diffEnd := rnd (rnd (endC - fromC) - 1)
  if fromC ≥ startC ∧ fromC < endC then 0
  else min (abs diffStart) (abs diffEnd)

/-- Embedding of the box form of `AgentTileHelper::getDistance`
(lines 153-164): the value is the argument of `sqrtf`, the squared distance
as the float operations of line 163 compute it, `rnd` rounding the result of
each of them. -/
def getDistanceSq (rnd : ℚ → ℚ) (fromPos toStart toEnd : Vec3f) : ℚ :=
  let xDiff := axisDiff rnd fromPos.x toStart.x toEnd.x
  let yDiff := axisDiff rnd fromPos.y toStart.y toEnd.y
  let zDiff := axisDiff rnd fromPos.z toStart.z toEnd.z
  rnd (rnd (rnd (xDiff * xDiff) + rnd (yDiff * yDiff)) + rnd (zDiff * zDiff))

/-- The per-axis offset as the specification words it: zero inside the box on
that axis, otherwise the smaller of the distances to `boxMin` and `boxMax`. -/
def axisOffsetSpec (p boxMin boxMax : ℚ) : ℚ :=
  if boxMin ≤ p ∧ p < boxMax then 0 else min (abs (boxMin - p)) (abs (boxMax - p))

/-- The per-axis offset with the far face taken at the last cell of the box,
`boxMax - 1`. -/
def axisOffsetLastCell (p boxMin boxMax : ℚ) : ℚ :=
  if boxMin ≤ p ∧ p < boxMax then 0 else min (abs (boxMin - p)) (abs ((boxMax - 1) - p))

end AgentTileHelper

/-! ## Missions -/

/-- The enumeration `AgentMission::MissionType`. -/
inductive MissionType where
  | GotoBuilding
  | Snooze
  | AwaitPickup
  | RestartNextMission
  | Teleport
deriving DecidableEq, Repr

/-- The data members of `AgentMission`.  `timeToSnooze` is an `unsigned int`,
a natural below `2 ^ 32`; `currentPlannedPath` lists the waypoints front
first. -/
structure AgentMission where
  type : MissionType
  targetBuilding : StateRef
  allowTeleporter : Bool
  timeToSnooze : Nat
  currentPlannedPath : List Vec3
  cancelled : Bool

/-- The part of `Building` the missions read: the entry cell and the footprint
test `bounds.within` on an `(x, y)` pair. -/
structure Building where
  crewQuarters : Vec3
  boundsWithin : Int → Int → Bool

/-- The part of `City` the missions read. -/
structure City where
  map : TileMap

/-- The part of `Agent` the missions read and write.  `position` is the tile
the agent stands on (the source converts the float position to `Vec3<int>`
wherever a mission uses it).  `missions` is the agent's queue, front first;
the mission an operation runs on is handed to the operation separately, and
the operations only ever push in front of the queue. -/
structure Agent where
  position : Vec3
  currentBuilding : StateRef
  missions : List AgentMission
  city : City

/-- The part of `GameState` (and of the sound backend reached through it) that
the missions touch: the buildings a `StateRef` resolves to, whether a teleport
sample is loaded, and the positions at which the sample has been played. -/
structure GameState where
  buildings : StateRef → Building
  teleportSample : Bool
  playedSamples : List Vec3

/-- Operations of collaborators whose code is outside this unit, taken as
parameters: `Agent::canTeleport`, `Agent::enterBuilding` and
`TileMap::findShortestPath` (start, goal, iteration budget, and the agent the
traversal helper is bound to). -/
structure Collaborators where
  canTeleport : Agent → Bool
  enterBuilding : GameState → Agent → StateRef → GameState × Agent
  findShortestPath : TileMap → Vec3 → Vec3 → Nat → Agent → List Vec3

/-- The objects a mission operation works on: the game state, the mission
itself (`this`) and the agent. -/
structure Frame where
  state : GameState
  mission : AgentMission
  agent : Agent

namespace AgentMission

/-- Modelled from the spec: the default-initialised `AgentMission` the factory
operations start from (the class declaration is not part of the sources at
hand): a newly allocated, un-started mission, not cancelled, with no target,
no snooze time and no planned path. -/
def fresh : AgentMission :=
  { type := MissionType.GotoBuilding, targetBuilding := none, allowTeleporter := false,
    timeToSnooze := 0, currentPlannedPath := [], cancelled := false }

/-- Embedding of `AgentMission::gotoBuilding` (lines 229-237). -/
def gotoBuilding (target : StateRef) (allowTeleporter : Bool) : AgentMission :=
  { fresh with type := MissionType.GotoBuilding, targetBuilding := target,
               allowTeleporter := allowTeleporter }

/-- Embedding of `AgentMission::snooze` (lines 239-245). -/
def snooze (snoozeTicks : Nat) : AgentMission :=
  { fresh with type := MissionType.Snooze, timeToSnooze := snoozeTicks }

/-- Embedding of `AgentMission::restartNextMission` (lines 247-252). -/
def restartNextMission : AgentMission :=
  { fresh with type := MissionType.RestartNextMission }

/-- Embedding of `AgentMission::awaitPickup` (lines 254-259). -/
def awaitPickup : AgentMission :=
  { fresh with type := MissionType.AwaitPickup }

/-- Embedding of `AgentMission::teleport` (lines 261-267). -/
def teleport (b : StateRef) : AgentMission :=
  { fresh with type := MissionType.Teleport, targetBuilding := b }

/-- Embedding of `AgentMission::isFinishedInternal` (lines 363-385). -/
def isFinishedInternal (self : AgentMission) (a : Agent) : Bool :=
  if self.cancelled then true
  else
    match self.type with
    | MissionType.GotoBuilding => decide (self.targetBuilding = a.currentBuilding)
    | MissionType.Snooze => decide (self.timeToSnooze = 0)
    | MissionType.AwaitPickup => true
    | MissionType.RestartNextMission => true
    | MissionType.Teleport => true

/-- The completion rule as the specification words it. -/
def isFinishedSpec (self : AgentMission) (a : Agent) : Bool :=
  self.cancelled ||
    (match self.type with
     | MissionType.GotoBuilding => decide (self.targetBuilding = a.currentBuilding)
     | MissionType.Snooze => decide (self.timeToSnooze = 0)
     | MissionType.Teleport => true
     | MissionType.RestartNextMission => true
     | MissionType.AwaitPickup => true)

/-- Embedding of `AgentMission::setPathTo` (lines 430-447); the result is the
mission afterwards. -/
def setPathTo (env : Collaborators) (state : GameState) (self : AgentMission) (a : Agent)
    (b : StateRef) : AgentMission :=
  let cleared := { self with currentPlannedPath := [] }
  let path := env.findShortestPath a.city.map a.position (state.buildings b).crewQuarters 1000 a
  if path.isEmpty then { cleared with cancelled := true }
  else { cleared with currentPlannedPath := a.position :: path }

/-- Embedding of `AgentMission::update` (lines 306-348). -/
def update (env : Collaborators) (c : Frame) (ticks : Nat) (finished : Bool) : Frame :=
  let finished := finished || isFinishedInternal c.mission c.agent
  match c.mission.type with
  | MissionType.GotoBuilding =>
    if finished then c
    else if c.mission.currentPlannedPath.isEmpty then
      if c.agent.position = (c.state.buildings c.mission.targetBuilding).crewQuarters then
        let r := env.enterBuilding c.state c.agent c.mission.targetBuilding
        { c with state := r.1, agent := r.2 }
      else
        { c with mission := setPathTo env c.state c.mission c.agent c.mission.targetBuilding }
    else c
  | MissionType.AwaitPickup => c
  | MissionType.RestartNextMission => c
  | MissionType.Snooze =>
    if ticks ≥ c.mission.timeToSnooze then
      { c with mission := { c.mission with timeToSnooze := 0 } }
    else
      { c with mission :=
          { c.mission with timeToSnooze := (c.mission.timeToSnooze + 2 ^ 32 - ticks) % 2 ^ 32 } }
  | MissionType.Teleport => c

/-- Embedding of `AgentMission::isFinished` (lines 350-361): the returned flag
and the objects afterwards. -/
def isFinished (env : Collaborators) (c : Frame) (callUpdateIfFinished : Bool) : Bool × Frame :=
  if isFinishedInternal c.mission c.agent then
    if callUpdateIfFinished then (true, update env c 0 true) else (true, c)
  else (false, c)

/-- The `case MissionType::Teleport` block of `AgentMission::start`
(lines 406-419), run for the target building `targetBuilding`. -/
def startTeleportCase (env : Collaborators) (state : GameState) (targetBuilding : StateRef)
    (a : Agent) : GameState × Agent :=
  if !env.canTeleport a then (state, a)
  else
    let r := env.enterBuilding state a targetBuilding
    if r.1.teleportSample then
      ({ r.1 with playedSamples := r.2.position :: r.1.playedSamples }, r.2)
    else r

/-- Embedding of `AgentMission::teleportCheck` (lines 269-279): the returned
flag with the game state and agent afterwards.  The new mission has type
`Teleport`, so `teleportMission->start` runs the `Teleport` case. -/
def teleportCheck (env : Collaborators) (state : GameState) (self : AgentMission) (a : Agent) :
    Bool × GameState × Agent :=
  if self.allowTeleporter && env.canTeleport a then
    let teleportMission := teleport self.targetBuilding
    let a1 := { a with missions := teleportMission :: a.missions }
    let r := startTeleportCase env state teleportMission.targetBuilding a1
    (true, r.1, r.2)
  else (false, state, a)

/-- Embedding of `AgentMission::start` (lines 387-428).  The `GotoBuilding`
case does not end in `return` or `break`, so after its own work control runs
on into the `Teleport` case. -/
def start (env : Collaborators) (c : Frame) : Frame :=
  match c.mission.type with
  | MissionType.GotoBuilding =>
    let t := teleportCheck env c.state c.mission c.agent
    if t.1 then { c with state := t.2.1, agent := t.2.2 }
    else
      let c0 : Frame := { c with state := t.2.1, agent := t.2.2 }
      let c1 : Frame :=
        if (c0.state.buildings c0.mission.targetBuilding).boundsWithin
            c0.agent.position.x c0.agent.position.y then
          let r := env.enterBuilding c0.state c0.agent c0.mission.targetBuilding
          { c0 with state := r.1, agent := r.2 }
        else if c0.mission.currentPlannedPath.isEmpty then
          { c0 with mission :=
              setPathTo env c0.state c0.mission c0.agent c0.mission.targetBuilding }
        else c0
      let r := startTeleportCase env c1.state c1.mission.targetBuilding c1.agent
      { c1 with state := r.1, agent := r.2 }
  | MissionType.Teleport =>
    let r := startTeleportCase env c.state c.mission.targetBuilding c.agent
    { c with state := r.1, agent := r.2 }
  | MissionType.RestartNextMission => c
  | MissionType.Snooze => c
  | MissionType.AwaitPickup => c

/-- The condition of lines 469-472 on the new head `pos` of the path, with
`tFrom` the agent's tile and `tTo` the tile at `pos`: `true` when the head has
become unreachable.  `canEnterTile` is only called when the head is another
tile at most one cell away. -/
def headInvalid (map : TileMap) (tFrom tTo : Tile) (pos : Vec3) : Option Bool :=
  if tFrom.position = pos then some false
  else if farApart tFrom.position pos then some true
  else
    match AgentTileHelper.canEnterTileFlag map (some tFrom) (some tTo) 0 with
    | none => none
    | some ok => some (!ok)

/-- The loop condition of lines 490-493 on the waypoint `wp` that follows the
head: it is the agent's tile, or at most one cell away and enterable.  The
tile at `wp` is only looked up in the second case. -/
def canShortcutTo (map : TileMap) (tFrom : Tile) (wp : Vec3) : Option Bool :=
  if tFrom.position = wp then some true
  else if withinOne tFrom.position wp then
    match map.getTile wp with
    | none => none
    | some tile => AgentTileHelper.canEnterTileFlag map (some tFrom) (some tile) 0
  else some false

/-- The shortcut loop of lines 485-499 on a planned path `pos :: rest`: the
result is `pos` and the planned path's tail when the loop ends. -/
def shortcutScan (map : TileMap) (tFrom : Tile) : Vec3 → List Vec3 → Option (Vec3 × List Vec3)
  | pos, [] => some (pos, [])
  | pos, wp :: rest =>
    match canShortcutTo map tFrom wp with
    | none => none
    | some true => shortcutScan map tFrom wp rest
    | some false => some (pos, wp :: rest)

/-- Embedding of `AgentMission::advanceAlongPath` (lines 449-503).  The first
component of the result is `none` when the function returns `false` (and
leaves `destPos` alone) and `some d` when it returns `true` with `destPos = d`;
the second holds the objects afterwards. -/
def advanceAlongPath (env : Collaborators) (c : Frame) : Option (Option Vec3f × Frame) :=
  match c.mission.currentPlannedPath with
  | [] => some (none, c)
  | _ :: popped =>
    match popped with
    | [] => some (none, { c with mission := { c.mission with currentPlannedPath := [] } })
    | pos :: rest =>
      let map := c.agent.city.map
      match map.getTile c.agent.position with
      | none => none
      | some tFrom =>
        match map.getTile pos with
        | none => none
        | some tTo =>
          match headInvalid map tFrom tTo pos with
          | none => none
          | some true =>
            let a1 := { c.agent with missions := restartNextMission :: c.agent.missions }
            let r := start env ⟨c.state, restartNextMission, a1⟩
            some (none, { state := r.state,
                          mission := { c.mission with currentPlannedPath := [] },
                          agent := r.agent })
          | some false =>
            match shortcutScan map tFrom pos rest with
            | none => none
            | some (final, tail) =>
              some (some (tileCentre final),
                { c with mission := { c.mission with currentPlannedPath := final :: tail } })

/-- Embedding of `AgentMission::getNextDestination` (lines 281-304), with the
result read as for `advanceAlongPath`. -/
def getNextDestination (env : Collaborators) (c : Frame) : Option (Option Vec3f × Frame) :=
  if c.mission.cancelled then some (none, c)
  else
    match c.mission.type with
    | MissionType.GotoBuilding => advanceAlongPath env c
    | MissionType.Snooze => some (none, c)
    | MissionType.RestartNextMission => some (none, c)
    | MissionType.AwaitPickup => some (none, c)
    | MissionType.Teleport => some (none, c)

/-- The mission of a frame is cancelled and `isFinished` returns true on it. -/
def staysCancelled (env : Collaborators) (c : Frame) : Prop :=
  c.mission.cancelled = true ∧ ∀ callUpdateIfFinished : Bool,
    (isFinished env c callUpdateIfFinished).1 = true

end AgentMission

/-! ## Collaborators -/

/-- Modelled from the spec: `Agent::enterBuilding` (its code is not part of the
sources at hand).  The agent enters the building: the building becomes the
agent's current building; the game state and the rest of the agent are left as
they are. -/
def Agent.enterBuilding (state : GameState) (a : Agent) (b : StateRef) : GameState × Agent :=
  (state, { a with currentBuilding := b })

namespace Collaborators

/-- Modelled from the spec: `Agent::enterBuilding` (its code is not part of the
sources at hand).  The agent enters the building: the building becomes the
agent's current building, and the agent's mission queue is left as it is. -/
def entersBuilding (env : Collaborators) : Prop :=
  ∀ (s : GameState) (a : Agent) (b : StateRef),
    (env.enterBuilding s a b).2.currentBuilding = b ∧
    (env.enterBuilding s a b).2.missions = a.missions

/-- Modelled from the spec: `Agent::canTeleport` (its code is not part of the
sources at hand).  The teleport capability of an agent does not depend on the
missions in its queue. -/
def teleportIgnoresQueue (env : Collaborators) : Prop :=
  ∀ (a : Agent) (q : List AgentMission),
    env.canTeleport { a with missions := q } = env.canTeleport a

end Collaborators

/-! ## Maps whose scenery stands on the map -/

/-- Every scenery found on a cell of the map has its `currentPosition` on the
map. -/
def TileMap.sceneryOnMap (map : TileMap) : Prop :=
  ∀ (p : Vec3) (s : Scenery), map.tileIsValid p = true →
    firstScenery (map.tiles p).ownedObjects = some s →
    map.tileIsValid s.currentPosition = true

/-! ## Raw music tracks (`game/apocresources/music.cpp`) -/

namespace RawMusicLoader

/-- The table `starts` (line 11): the byte offset of each track. -/
def starts : List Nat :=
  [0, 8467200, 19580400, 35897400, 40131000, 46569600,
   57947400, 72147600, 84142800, 92610000, 104076000, 107780400,
   118540800, 130712400, 142090200, 154085400, 165904200, 176664600,
   187248600, 196686000, 207270000, 218559600, 231436800, 234082800,
   237169800, 239815800, 242461800, 245107800, 247842000, 250488000,
   263365200, 275801400, 287796600, 298821600, 304819200]

/-- The table `lengths` (line 12): the byte length of each track. -/
def lengths : List Nat :=
  [8202600, 19404000, 35897400, 40131000, 46569600, 57859200,
   72147600, 84054600, 92610000, 103987800, 107780400, 118452600,
   130536000, 142090200, 153997200, 165816000, 176488200, 187072200,
   196686000, 207093600, 218383200, 231348600, 234082800, 237169800,
   239815800, 242461800, 245107800, 247842000, 250488000, 263188800,
   275713200, 287708400, 298821600, 304731000, 311434200]

/-- What `loadMusic` returns: a null pointer, told apart by the message
written before it, or a track created after seeking to `seekTo`, with
`numSamples` samples. -/
inductive LoadResult where
  | invalidPath
  | notNumeric
  | outOfBounds
  | cannotOpen
  | insufficientSize
  | loaded (seekTo : Nat) (numSamples : Nat)
deriving DecidableEq, Repr

/-- The index an `int` denotes once converted to the unsigned 64-bit type of
`size()` and of the subscript of `std::vector`. -/
def asIndex (track : Int) : Nat := (track % 2 ^ 64).toNat

/-- The test of line 91, `track > lengths.size()`, the `int` being converted to
the unsigned type of `size()` before the comparison. -/
def trackOutOfBounds (track : Int) : Bool :=
  decide (asIndex track > lengths.length)

/-- Embedding of `RawMusicLoader::loadMusic` (lines 75-114).  `strings` is the
result of `Strings::Split(path, ':')`; `isNumeric`, `toInteger` stand for
`Strings::IsNumeric` and `Strings::ToInteger`, and `loadFile` for
`fw.data->load_file` followed by `PHYSFS_fileLength`: `none` when the file
cannot be opened, else its length.  A subscript outside a table has no
defined result. -/
def loadMusic (strings : List String) (isNumeric : String → Bool) (toInteger : String → Int)
    (loadFile : String → Option Int) : Option LoadResult :=
  match strings with
  | [name, number] =>
    if !isNumeric number then some LoadResult.notNumeric
    else
      let track := toInteger number
      if trackOutOfBounds track then some LoadResult.outOfBounds
      else
        match loadFile name with
        | none => some LoadResult.cannotOpen
        | some fileLength =>
          match lengths[asIndex track]?, starts[asIndex track]? with
          | some len, some start =>
            if fileLength < (((len + start) % 2 ^ 32 : Nat) : Int) then
              some LoadResult.insufficientSize
            else some (LoadResult.loaded start (len / 2 / 2))
          | _, _ => none
  | _ => some LoadResult.invalidPath

end RawMusicLoader

/-! ## Example configurations -/

namespace Example

/-- An undamaged, non-falling scenery. -/
def intact (ty : TileType) (tube : Fin 6 → Bool) (building : StateRef) (pos : Vec3) : Scenery :=
  ⟨⟨ty, tube⟩, false, false, building, pos⟩

/-- A junction at the origin whose mask is set towards the east only. -/
def junction : Scenery :=
  intact TileType.PeopleTubeJunction ![false, true, false, false, false, false] none ⟨0, 0, 0⟩

/-- A tube east of the origin whose mask is set towards the west only. -/
def tube : Scenery :=
  intact TileType.PeopleTube ![false, false, false, true, false, false] none ⟨1, 0, 0⟩

/-- A building floor above the origin. -/
def floorAbove : Scenery :=
  intact TileType.General (fun _ => false) (some "HQ") ⟨0, 0, 1⟩

/-- A building floor south of the origin. -/
def floorSouth : Scenery :=
  intact TileType.General (fun _ => false) (some "HQ") ⟨0, 1, 0⟩

/-- A junction two levels above the origin. -/
def junctionTop : Scenery :=
  intact TileType.PeopleTubeJunction (fun _ => false) none ⟨0, 0, 2⟩

/-- The objects of each cell of the example map. -/
def objects (p : Vec3) : List TileObject :=
  if p = ⟨0, 0, 0⟩ then [TileObject.Other, TileObject.Scenery (some junction)]
  else if p = ⟨1, 0, 0⟩ then [TileObject.Scenery (some tube)]
  else if p = ⟨0, 0, 1⟩ then [TileObject.Scenery (some floorAbove)]
  else if p = ⟨0, 1, 0⟩ then [TileObject.Scenery (some floorSouth)]
  else if p = ⟨0, 0, 2⟩ then [TileObject.Scenery (some junctionTop)]
  else []

/-- A map of two by two columns, three levels high. -/
def map : TileMap := ⟨⟨2, 2, 3⟩, fun p => ⟨p, objects p⟩⟩

/-- The tile of the example map at `p`. -/
def tileAt (p : Vec3) : Tile := map.tiles p

/-- A building floor whose `currentPosition` is the cell above the tube, one
column east of the origin. -/
def floorAstray : Scenery :=
  intact TileType.General (fun _ => false) (some "HQ") ⟨1, 0, 1⟩

/-- The example map with the floor above the origin replaced by `floorAstray`:
the cell `(0, 0, 1)` owns a scenery that reports the position `(1, 0, 1)`. -/
def mapAstray : TileMap :=
  ⟨⟨2, 2, 3⟩, fun p =>
    ⟨p, if p = ⟨0, 0, 1⟩ then [TileObject.Scenery (some floorAstray)] else objects p⟩⟩

/-- A tile east of the origin whose scenery is damaged. -/
def damagedTile : Tile :=
  ⟨⟨1, 0, 0⟩, [TileObject.Scenery (some { tube with damaged := true })]⟩

/-- Collaborators of an agent that can teleport; entering a building records it
as the agent's current building, and no path is ever found. -/
def collaborators : Collaborators :=
  { canTeleport := fun _ => true,
    enterBuilding := Agent.enterBuilding,
    findShortestPath := fun _ _ _ _ _ => [] }

/-- Collaborators of an agent that can teleport and for which the path search
finds the one-step path to the tube east of the origin. -/
def collaboratorsWithPath : Collaborators :=
  { canTeleport := fun _ => true,
    enterBuilding := Agent.enterBuilding,
    findShortestPath := fun _ _ _ _ _ => [⟨1, 0, 0⟩] }

/-- A game state with a single kind of building and a teleport sample loaded. -/
def gameState : GameState :=
  { buildings := fun _ => ⟨⟨1, 1, 0⟩, fun x y => decide (x = 1 ∧ y = 1)⟩,
    teleportSample := true, playedSamples := [] }

/-- An agent standing at the origin of the example map, outside any building. -/
def agent : Agent :=
  { position := ⟨0, 0, 0⟩, currentBuilding := none, missions := [], city := ⟨map⟩ }

/-- A snooze mission of ten ticks that has been cancelled. -/
def cancelledSnooze : AgentMission :=
  { AgentMission.snooze 10 with cancelled := true }

/-- A fresh snooze mission of ten ticks, together with the example game state
and agent. -/
def snoozeFrame : Frame :=
  ⟨gameState, AgentMission.snooze 10, agent⟩

/-- A `GotoBuilding` mission for the building "HQ" with the given planned path,
together with the example game state and agent. -/
def pathFrame (allowTeleporter : Bool) (path : List Vec3) : Frame :=
  ⟨gameState,
   { AgentMission.gotoBuilding (some "HQ") allowTeleporter with currentPlannedPath := path },
   agent⟩

/-- A cancelled `GotoBuilding` mission with a planned path of one waypoint,
together with the example game state and agent. -/
def cancelledPathFrame : Frame :=
  ⟨gameState,
   { AgentMission.gotoBuilding (some "HQ") false with
       currentPlannedPath := [⟨0, 0, 0⟩], cancelled := true },
   agent⟩

end Example

end OpenApoc

namespace OpenApoc

namespace AgentTileHelper

/-! ## Direction codes and per-scenery legality: theorems -/

theorem tubeAt_fin (tube : Fin 6 → Bool) (d : Fin 6) :
    tubeAt tube ((d.val : Nat) : Int) = some (tube d) := by
  unfold tubeAt
  have h : (0 : Int) ≤ ((d.val : Nat) : Int) ∧ ((d.val : Nat) : Int) < 6 := by
    have := d.isLt
    omega
  rw [dif_pos h]
  congr

theorem isMoveAllowed_fin (s : Scenery) (d : Fin 6) :
    isMoveAllowed s ((d.val : Nat) : Int) = some (isTraversalAllowedSpec s d) := by
  unfold isMoveAllowed isTraversalAllowedSpec
  cases htt : s.type.tile_type <;> simp only [tubeAt_fin]
  congr 1
  have h4 : (((d.val : Nat) : Int) = 4) ↔ d.val = 4 := by omega
  have h5 : (((d.val : Nat) : Int) = 5) ↔ d.val = 5 := by omega
  simp only [h4, h5, Bool.or_assoc, Bool.decide_or]

/-- C1: on every scenery and every direction code `d` in `0..5`, `isMoveAllowed`
agrees with the documented rule (tube: `tube[d]`; junction: `tube[d]` or `d` is
4 or 5; general and road: the scenery has a building; wall: never).  A tube
whose mask is set only at 0 allows exactly direction 0, and a junction whose
mask is all false allows exactly directions 4 and 5. -/
theorem isMoveAllowed_matches_rule :
    (∀ (s : Scenery) (d : Fin 6),
      isMoveAllowed s ((d.val : Nat) : Int) = some (isTraversalAllowedSpec s d)) ∧
    (∀ (damaged falling : Bool) (building : StateRef) (pos : Vec3) (d : Fin 6),
      isMoveAllowed
        ⟨⟨TileType.PeopleTube, ![true, false, false, false, false, false]⟩,
          damaged, falling, building, pos⟩ ((d.val : Nat) : Int)
        = some (decide (d.val = 0))) ∧
    (∀ (damaged falling : Bool) (building : StateRef) (pos : Vec3) (d : Fin 6),
      isMoveAllowed
        ⟨⟨TileType.PeopleTubeJunction, fun _ => false⟩,
          damaged, falling, building, pos⟩ ((d.val : Nat) : Int)
        = some (decide (d.val = 4 ∨ d.val = 5))) := by
  refine ⟨isMoveAllowed_fin, ?_, ?_⟩
  · intro damaged falling building pos d
    rw [isMoveAllowed_fin]
    fin_cases d <;> rfl
  · intro damaged falling building pos d
    rw [isMoveAllowed_fin]
    fin_cases d <;> rfl

/-- C2: each of the six single-axis unit displacements gets its documented
direction code: north 0, east 1, south 2, west 3, up 4, down 5. -/
theorem convertDirection_unit_steps :
    convertDirection ⟨0, -1, 0⟩ = 0 ∧ convertDirection ⟨1, 0, 0⟩ = 1 ∧
    convertDirection ⟨0, 1, 0⟩ = 2 ∧ convertDirection ⟨-1, 0, 0⟩ = 3 ∧
    convertDirection ⟨0, 0, 1⟩ = 4 ∧ convertDirection ⟨0, 0, -1⟩ = 5 := by
  decide

/-- C3 (as stated, refuted): the displacement `(1, 1, 0)` has two nonzero
components, so it is not a single-axis unit step, yet `convertDirection`
returns the code 1 for it and not the sentinel -1. -/
theorem convertDirection_diagonal_not_sentinel :
    ¬ isUnitStep ⟨1, 1, 0⟩ ∧ convertDirection ⟨1, 1, 0⟩ = 1 ∧
    convertDirection ⟨1, 1, 0⟩ ≠ -1 := by
  decide

/-- C3 (amended): `convertDirection` answers with the first test that matches,
in the order `y = -1` (code 0), `x = 1` (code 1), `y = 1` (code 2), `x = -1`
(code 3), `z = 1` (code 4), `z = -1` (code 5), whatever the other components
are; it returns the sentinel -1 exactly when no component of the
displacement is `1` or `-1`, which covers the zero displacement and every
displacement whose nonzero components all have magnitude greater than 1. -/
theorem convertDirection_first_matching_test (dir : Vec3) :
    (dir.y = -1 → convertDirection dir = 0) ∧
    (dir.y ≠ -1 → dir.x = 1 → convertDirection dir = 1) ∧
    (dir.y ≠ -1 → dir.x ≠ 1 → dir.y = 1 → convertDirection dir = 2) ∧
    (dir.y ≠ -1 → dir.x ≠ 1 → dir.y ≠ 1 → dir.x = -1 → convertDirection dir = 3) ∧
    (dir.y ≠ -1 → dir.x ≠ 1 → dir.y ≠ 1 → dir.x ≠ -1 → dir.z = 1 →
      convertDirection dir = 4) ∧
    (dir.y ≠ -1 → dir.x ≠ 1 → dir.y ≠ 1 → dir.x ≠ -1 → dir.z ≠ 1 → dir.z = -1 →
      convertDirection dir = 5) ∧
    (convertDirection dir = -1 ↔
      (dir.x ≠ 1 ∧ dir.x ≠ -1 ∧ dir.y ≠ 1 ∧ dir.y ≠ -1 ∧ dir.z ≠ 1 ∧ dir.z ≠ -1)) := by
  unfold convertDirection
  refine ⟨?_, ?_, ?_, ?_, ?_, ?_, ?_⟩
  · intro h1
    rw [if_pos h1]
  · intro h1 h2
    rw [if_neg h1, if_pos h2]
  · intro h1 h2 h3
    rw [if_neg h1, if_neg h2, if_pos h3]
  · intro h1 h2 h3 h4
    rw [if_neg h1, if_neg h2, if_neg h3, if_pos h4]
  · intro h1 h2 h3 h4 h5
    rw [if_neg h1, if_neg h2, if_neg h3, if_neg h4, if_pos h5]
  · intro h1 h2 h3 h4 h5 h6
    rw [if_neg h1, if_neg h2, if_neg h3, if_neg h4, if_neg h5, if_pos h6]
  · constructor
    · intro h
      split_ifs at h
      omega
    · rintro ⟨h1, h2, h3, h4, h5, h6⟩
      simp [h1, h2, h3, h4, h5, h6]

/-- C3 at concrete inputs: displacements with several components equal to `1`
or `-1` get the code of the first test that matches, and the zero
displacement and `(2, 0, -3)` get the sentinel. -/
theorem convertDirection_first_matching_test_witness :
    convertDirection ⟨1, -1, 1⟩ = 0 ∧ convertDirection ⟨1, 1, -1⟩ = 1 ∧
    convertDirection ⟨-1, 1, 1⟩ = 2 ∧ convertDirection ⟨-1, 0, 1⟩ = 3 ∧
    convertDirection ⟨2, 0, 1⟩ = 4 ∧ convertDirection ⟨0, 2, -1⟩ = 5 ∧
    convertDirection ⟨0, 0, 0⟩ = -1 ∧ convertDirection ⟨2, 0, -3⟩ = -1 :=
  ⟨(convertDirection_first_matching_test ⟨1, -1, 1⟩).1 rfl,
   (convertDirection_first_matching_test ⟨1, 1, -1⟩).2.1 (by decide) rfl,
   (convertDirection_first_matching_test ⟨-1, 1, 1⟩).2.2.1 (by decide) (by decide) rfl,
   (convertDirection_first_matching_test ⟨-1, 0, 1⟩).2.2.2.1 (by decide) (by decide)
     (by decide) rfl,
   (convertDirection_first_matching_test ⟨2, 0, 1⟩).2.2.2.2.1 (by decide) (by decide)
     (by decide) (by decide) rfl,
   (convertDirection_first_matching_test ⟨0, 2, -1⟩).2.2.2.2.2.1 (by decide) (by decide)
     (by decide) (by decide) (by decide) rfl,
   (convertDirection_first_matching_test ⟨0, 0, 0⟩).2.2.2.2.2.2.mpr (by decide),
   (convertDirection_first_matching_test ⟨2, 0, -3⟩).2.2.2.2.2.2.mpr (by decide)⟩

/-! ## `canEnterTile`: theorems -/

theorem Vec3_sub_x (a b : Vec3) : (a - b).x = a.x - b.x := rfl

theorem Vec3_sub_y (a b : Vec3) : (a - b).y = a.y - b.y := rfl

theorem Vec3_sub_z (a b : Vec3) : (a - b).z = a.z - b.z := rfl

theorem Vec3_eq_iff (a b : Vec3) : a = b ↔ a.x = b.x ∧ a.y = b.y ∧ a.z = b.z := by
  cases a; cases b; simp

/-- Two distinct positions whose displacement passes the test of line 65 are a
single-axis unit step apart. -/
theorem isUnitStep_of_abs_le (a b : Vec3) (hne : a ≠ b)
    (h : ¬ (intAbs (b - a).x + intAbs (b - a).y + intAbs (b - a).z > 1)) :
    isUnitStep (b - a) := by
  rw [Ne, Vec3_eq_iff] at hne
  simp only [Vec3_sub_x, Vec3_sub_y, Vec3_sub_z, intAbs, isUnitStep] at *
  split_ifs at h <;> omega

/-- C4: when the displacement between two tiles is not a single-axis unit step
(the tiles coincide, lie more than one cell apart, or differ on several axes)
`canEnterTile` returns not-allowed and leaves the cost untouched, whatever the
tiles hold. -/
theorem canEnterTile_denies_non_unit_step (map : TileMap) (fromTile toTile : Tile) (cost : Int)
    (h : ¬ isUnitStep (toTile.position - fromTile.position)) :
    canEnterTile map (some fromTile) (some toTile) cost = some (false, cost) := by
  unfold canEnterTile
  simp only
  by_cases hne : fromTile.position = toTile.position
  · rw [if_pos hne]
  · rw [if_neg hne]
    split_ifs with h1 h2
    · rfl
    · rfl
    · exact absurd (isUnitStep_of_abs_le _ _ hne h2) h

/-- C5: when either tile has no scenery, or the scenery of either tile is
damaged or falling, `canEnterTile` returns not-allowed and leaves the cost
untouched, whatever the types, masks and direction are. -/
theorem canEnterTile_denies_unstable (map : TileMap) (fromTile toTile : Tile) (cost : Int)
    (h : firstScenery fromTile.ownedObjects = none ∨
         firstScenery toTile.ownedObjects = none ∨
         (∃ s, firstScenery fromTile.ownedObjects = some s ∧
            (s.damaged = true ∨ s.falling = true)) ∨
         (∃ s, firstScenery toTile.ownedObjects = some s ∧
            (s.damaged = true ∨ s.falling = true))) :
    canEnterTile map (some fromTile) (some toTile) cost = some (false, cost) := by
  unfold canEnterTile
  simp only
  split_ifs with h1 h2 h3
  · rfl
  · rfl
  · rfl
  · split
    · rename_i sF sT hF hT
      have hbad : (sF.damaged || sT.damaged || sF.falling || sT.falling) = true := by
        rcases h with h | h | ⟨s, hs, hd⟩ | ⟨s, hs, hd⟩
        · rw [hF] at h; cases h
        · rw [hT] at h; cases h
        · rw [hF] at hs; cases hs
          rcases hd with hd | hd <;> simp [hd]
        · rw [hT] at hs; cases hs
          rcases hd with hd | hd <;> simp [hd]
      rw [if_pos hbad]
    · rfl

/-- A lateral direction code read off a displacement keeps `tube[dir]` defined. -/
theorem tubeAt_isSome_of_range (tube : Fin 6 → Bool) (dir : Int) (h0 : 0 ≤ dir) (h5 : dir ≤ 5) :
    ∃ b, tubeAt tube dir = some b := by
  unfold tubeAt
  have h : 0 ≤ dir ∧ dir < 6 := ⟨h0, by omega⟩
  rw [dif_pos h]
  exact ⟨_, rfl⟩

/-- C6: for a source scenery of type `PeopleTubeJunction` and a lateral move
(direction code in `0..3`), `canEnterTile` can only answer allowed when the
destination scenery is a `PeopleTubeJunction` or a `PeopleTube`; into a
`General`, `Road` or `CityWall` destination the answer is not-allowed. -/
theorem canEnterTile_junction_lateral (map : TileMap) (fromTile toTile : Tile) (cost : Int)
    (sF sT : Scenery)
    (hF : firstScenery fromTile.ownedObjects = some sF)
    (hT : firstScenery toTile.ownedObjects = some sT)
    (hJ : sF.type.tile_type = TileType.PeopleTubeJunction)
    (hlat : 0 ≤ convertDirection (toTile.position - fromTile.position) ∧
            convertDirection (toTile.position - fromTile.position) ≤ 3) :
    (∀ c, canEnterTile map (some fromTile) (some toTile) cost = some (true, c) →
        sT.type.tile_type = TileType.PeopleTubeJunction ∨
        sT.type.tile_type = TileType.PeopleTube) ∧
    (sT.type.tile_type = TileType.General ∨ sT.type.tile_type = TileType.Road ∨
        sT.type.tile_type = TileType.CityWall →
      canEnterTile map (some fromTile) (some toTile) cost = some (false, cost)) := by
  have key : (sT.type.tile_type = TileType.PeopleTubeJunction ∨
        sT.type.tile_type = TileType.PeopleTube) ∨
      canEnterTile map (some fromTile) (some toTile) cost = some (false, cost) := by
    by_cases hty : sT.type.tile_type = TileType.PeopleTubeJunction ∨
        sT.type.tile_type = TileType.PeopleTube
    · exact Or.inl hty
    · right
      have hty1 : sT.type.tile_type ≠ TileType.PeopleTubeJunction := fun h => hty (Or.inl h)
      have hty2 : sT.type.tile_type ≠ TileType.PeopleTube := fun h => hty (Or.inr h)
      have hmF : ∃ bF, isMoveAllowed sF
          (convertDirection (toTile.position - fromTile.position)) = some bF := by
        obtain ⟨b, hb⟩ := tubeAt_isSome_of_range sF.type.tube
          (convertDirection (toTile.position - fromTile.position)) hlat.1 (by omega)
        unfold isMoveAllowed
        simp only [hJ, hb]
        exact ⟨_, rfl⟩
      have hmT : ∃ bT, isMoveAllowed sT
          (convertDirection (-(toTile.position - fromTile.position))) = some bT := by
        unfold isMoveAllowed
        cases hc : sT.type.tile_type
        · exact ⟨_, rfl⟩
        · exact ⟨_, rfl⟩
        · exact absurd hc hty2
        · exact absurd hc hty1
        · exact ⟨_, rfl⟩
      obtain ⟨bF, hbF⟩ := hmF
      obtain ⟨bT, hbT⟩ := hmT
      have hlt : convertDirection (toTile.position - fromTile.position) < 4 := by omega
      have hrule : convertDirection (toTile.position - fromTile.position) < 4 ∧
          sF.type.tile_type = TileType.PeopleTubeJunction ∧
          sT.type.tile_type ≠ TileType.PeopleTubeJunction ∧
          sT.type.tile_type ≠ TileType.PeopleTube := ⟨hlt, hJ, hty1, hty2⟩
      unfold canEnterTile
      simp only [hF, hT, hbF, hbT, if_pos hrule]
      split_ifs <;> cases bF <;> cases bT <;> rfl
  constructor
  · intro c hc
    rcases key with h | h
    · exact h
    · rw [h] at hc
      cases hc
  · intro hty
    rcases key with h | h
    · rcases h with h | h <;> rcases hty with h' | h' | h' <;> rw [h] at h' <;> cases h'
    · exact h

theorem isUnitStep_ne (a b : Vec3) (h : isUnitStep (b - a)) : a ≠ b := by
  intro hab
  subst hab
  simp only [isUnitStep, Vec3_sub_x, Vec3_sub_y, Vec3_sub_z] at h
  omega

theorem isUnitStep_abs (a b : Vec3) (h : isUnitStep (b - a)) :
    ¬ (intAbs (b - a).x + intAbs (b - a).y + intAbs (b - a).z > 1) := by
  simp only [isUnitStep, intAbs] at *
  split_ifs <;> omega

theorem lengthSq_of_isUnitStep (a b : Vec3) (h : isUnitStep (b - a)) :
    (a - b).lengthSq = 1 := by
  simp only [isUnitStep, Vec3_sub_x, Vec3_sub_y, Vec3_sub_z] at h
  simp only [Vec3.lengthSq, Vec3_sub_x, Vec3_sub_y, Vec3_sub_z]
  have hx : a.x - b.x = 1 ∨ a.x - b.x = -1 ∨ a.x - b.x = 0 := by omega
  have hy : a.y - b.y = 1 ∨ a.y - b.y = -1 ∨ a.y - b.y = 0 := by omega
  have hz : a.z - b.z = 1 ∨ a.z - b.z = -1 ∨ a.z - b.z = 0 := by omega
  rcases hx with hx | hx | hx <;> rcases hy with hy | hy | hy <;>
    rcases hz with hz | hz | hz <;> rw [hx, hy, hz] <;> omega

/-- On a single-axis unit step the code of the reversed displacement is the
opposite of the code of the displacement. -/
theorem convertDirection_neg (dir : Vec3) (h : isUnitStep dir) (d : Fin 6)
    (hd : convertDirection dir = ((d.val : Nat) : Int)) :
    convertDirection (-dir) = (((opposite d).val : Nat) : Int) := by
  obtain ⟨x, y, z⟩ := dir
  simp only [isUnitStep] at h
  rcases h with ⟨hx | hx, hy, hz⟩ | ⟨hx, hy | hy, hz⟩ | ⟨hx, hy, hz | hz⟩ <;>
    subst hx <;> subst hy <;> subst hz <;>
    fin_cases d <;> first | rfl | (exfalso; revert hd; decide)

/-- C7: between two adjacent tiles one step apart in direction `d` (in
particular a lateral one, `d` in `0..3`), with the destination on the map, an
undamaged, non-falling `PeopleTubeJunction` source whose mask has `tube[d]` set
and an undamaged, non-falling `PeopleTube` destination whose mask has
`tube[opposite d]` set, `canEnterTile` returns allowed, with cost 1. -/
theorem canEnterTile_junction_into_tube (map : TileMap) (fromTile toTile : Tile) (cost : Int)
    (sF sT : Scenery) (d : Fin 6)
    (hvalid : map.tileIsValid toTile.position = true)
    (hstep : isUnitStep (toTile.position - fromTile.position))
    (hdir : convertDirection (toTile.position - fromTile.position) = ((d.val : Nat) : Int))
    (hF : firstScenery fromTile.ownedObjects = some sF)
    (hT : firstScenery toTile.ownedObjects = some sT)
    (hFok : sF.damaged = false ∧ sF.falling = false)
    (hTok : sT.damaged = false ∧ sT.falling = false)
    (hFty : sF.type.tile_type = TileType.PeopleTubeJunction)
    (hTty : sT.type.tile_type = TileType.PeopleTube)
    (hFtube : sF.type.tube d = true)
    (hTtube : sT.type.tube (opposite d) = true) :
    canEnterTile map (some fromTile) (some toTile) cost = some (true, 1) := by
  have hne := isUnitStep_ne _ _ hstep
  have habs := isUnitStep_abs _ _ hstep
  have hlen := lengthSq_of_isUnitStep _ _ hstep
  have hmF : isMoveAllowed sF (convertDirection (toTile.position - fromTile.position))
      = some true := by
    rw [hdir, isMoveAllowed_fin]
    simp [isTraversalAllowedSpec, hFty, hFtube]
  have hmT : isMoveAllowed sT (convertDirection (-(toTile.position - fromTile.position)))
      = some true := by
    rw [convertDirection_neg _ hstep d hdir, isMoveAllowed_fin]
    simp [isTraversalAllowedSpec, hTty, hTtube]
  have h4 : ¬ (convertDirection (toTile.position - fromTile.position) = 4 ∧
      sT.type.tile_type = TileType.General) := by
    rw [hTty]
    rintro ⟨_, h⟩
    cases h
  have hrule : ¬ (convertDirection (toTile.position - fromTile.position) < 4 ∧
      sF.type.tile_type = TileType.PeopleTubeJunction ∧
      sT.type.tile_type ≠ TileType.PeopleTubeJunction ∧
      sT.type.tile_type ≠ TileType.PeopleTube) := by
    rintro ⟨_, _, _, h⟩
    exact h hTty
  unfold canEnterTile
  simp only [hF, hT, if_neg hne, hvalid, if_neg habs, hFok.1, hFok.2, hTok.1, hTok.2, hmF, hmT,
    if_neg hrule, if_neg h4, hlen]
  rfl

/-- The upward scan decides whether some tile strictly above `p`, below the map
height, holds a junction; it always produces a result when started on a
column of the map. -/
theorem junctionScan_spec (map : TileMap) (n : Nat) :
    ∀ p : Vec3, (map.size.z - p.z).toNat ≤ n →
      0 ≤ p.x → p.x < map.size.x → 0 ≤ p.y → p.y < map.size.y → -1 ≤ p.z →
      (junctionScan map p = some true ∧
        ∃ z, p.z < z ∧ z < map.size.z ∧ holdsJunction map ⟨p.x, p.y, z⟩ = true) ∨
      (junctionScan map p = some false ∧
        ∀ z, p.z < z → z < map.size.z → holdsJunction map ⟨p.x, p.y, z⟩ = false) := by
  induction n with
  | zero =>
    intro p hn _ _ _ _ _
    right
    have hz : map.size.z ≤ p.z + 1 := by omega
    rw [junctionScan]
    simp only [if_pos hz]
    exact ⟨trivial, fun z h1 h2 => by omega⟩
  | succ n ih =>
    intro p hn hx0 hx1 hy0 hy1 hz0
    by_cases hz : map.size.z ≤ p.z + 1
    · right
      rw [junctionScan]
      simp only [if_pos hz]
      exact ⟨trivial, fun z h1 h2 => by omega⟩
    · have hv : map.tileIsValid ⟨p.x, p.y, p.z + 1⟩ = true := by
        simp only [TileMap.tileIsValid, Bool.and_eq_true, decide_eq_true_eq]
        omega
      have hget : map.getTile ⟨p.x, p.y, p.z + 1⟩ = some (map.tiles ⟨p.x, p.y, p.z + 1⟩) := by
        simp only [TileMap.getTile, hv, if_true]
      have hrec := ih ⟨p.x, p.y, p.z + 1⟩ (by simp only; omega) hx0 hx1 hy0 hy1
        (by simp only; omega)
      simp only at hrec
      have hhere : holdsJunction map ⟨p.x, p.y, p.z + 1⟩ = false →
          ((junctionScan map ⟨p.x, p.y, p.z + 1⟩ = some true ∧
            ∃ z, p.z < z ∧ z < map.size.z ∧ holdsJunction map ⟨p.x, p.y, z⟩ = true) ∨
          (junctionScan map ⟨p.x, p.y, p.z + 1⟩ = some false ∧
            ∀ z, p.z < z → z < map.size.z → holdsJunction map ⟨p.x, p.y, z⟩ = false)) := by
        intro hno
        rcases hrec with ⟨h1, z, hz1, hz2, hj⟩ | ⟨h1, hall⟩
        · exact Or.inl ⟨h1, z, by omega, hz2, hj⟩
        · refine Or.inr ⟨h1, fun z hz1 hz2 => ?_⟩
          by_cases hzz : z = p.z + 1
          · rw [hzz]; exact hno
          · exact hall z (by omega) hz2
      rw [junctionScan]
      simp only [if_neg hz, hget]
      cases hfs : firstScenery (map.tiles ⟨p.x, p.y, p.z + 1⟩).ownedObjects with
      | none =>
        simp only
        apply hhere
        simp only [holdsJunction, hget, hfs]
      | some s =>
        simp only
        by_cases hty : s.type.tile_type = TileType.PeopleTubeJunction
        · rw [if_pos hty]
          refine Or.inl ⟨rfl, p.z + 1, by omega, by omega, ?_⟩
          simp only [holdsJunction, hget, hfs, hty, decide_True]
        · rw [if_neg hty]
          apply hhere
          simp only [holdsJunction, hget, hfs, hty, decide_False]

/-- An upward move into a `General` destination that passes every other check
is decided by the scan that starts at the destination scenery's
`currentPosition` (line 113). -/
theorem canEnterTile_up_scan (map : TileMap) (fromTile toTile : Tile) (cost : Int)
    (sF sT : Scenery)
    (hvalid : map.tileIsValid toTile.position = true)
    (hup : toTile.position - fromTile.position = ⟨0, 0, 1⟩)
    (hF : firstScenery fromTile.ownedObjects = some sF)
    (hT : firstScenery toTile.ownedObjects = some sT)
    (hFok : sF.damaged = false ∧ sF.falling = false)
    (hTok : sT.damaged = false ∧ sT.falling = false)
    (hTty : sT.type.tile_type = TileType.General)
    (hmF : isMoveAllowed sF 4 = some true)
    (hmT : isMoveAllowed sT 5 = some true) :
    canEnterTile map (some fromTile) (some toTile) cost =
      match junctionScan map sT.currentPosition with
      | none => none
      | some false => some (false, cost)
      | some true => some (true, 1) := by
  have hstep : isUnitStep (toTile.position - fromTile.position) := by
    rw [hup]; decide
  have hne := isUnitStep_ne _ _ hstep
  have habs := isUnitStep_abs _ _ hstep
  have hlen := lengthSq_of_isUnitStep _ _ hstep
  have hfwd : convertDirection (toTile.position - fromTile.position) = 4 := by
    rw [hup]; rfl
  have hbwd : convertDirection (-(toTile.position - fromTile.position)) = 5 := by
    rw [hup]; rfl
  have hrule : ¬ ((4 : Int) < 4 ∧
      sF.type.tile_type = TileType.PeopleTubeJunction ∧
      sT.type.tile_type ≠ TileType.PeopleTubeJunction ∧
      sT.type.tile_type ≠ TileType.PeopleTube) := by
    rintro ⟨h, _⟩
    omega
  have h4 : (4 : Int) = 4 ∧ sT.type.tile_type = TileType.General := ⟨rfl, hTty⟩
  unfold canEnterTile
  simp only [hF, hT, if_neg hne, hvalid, if_neg habs, hFok.1, hFok.2, hTok.1, hTok.2, hfwd,
    hbwd, hmF, hmT, if_neg hrule, if_pos h4, hlen]
  rw [if_neg (by simp), if_neg (by simp), if_pos ⟨trivial, hTty⟩]

/-- C8 (as stated, refuted): on `Example.mapAstray` the move from the junction at
the origin up into the `General` floor at `(0, 0, 1)` passes every other check
and the tile `(0, 0, 2)` strictly above the destination holds a junction, yet
`canEnterTile` answers not-allowed: the scenery of the destination reports
`currentPosition = (1, 0, 1)`, and the column scanned, above `(1, 0, 1)`,
holds no junction. -/
theorem canEnterTile_up_scans_scenery_column :
    Example.mapAstray.tileIsValid (Example.mapAstray.tiles ⟨0, 0, 1⟩).position = true ∧
    (Example.mapAstray.tiles ⟨0, 0, 1⟩).position - (Example.mapAstray.tiles ⟨0, 0, 0⟩).position
      = ⟨0, 0, 1⟩ ∧
    Example.floorAstray.type.tile_type = TileType.General ∧
    isMoveAllowed Example.junction 4 = some true ∧
    isMoveAllowed Example.floorAstray 5 = some true ∧
    ((Example.mapAstray.tiles ⟨0, 0, 1⟩).position.z < 2 ∧ 2 < Example.mapAstray.size.z ∧
      holdsJunction Example.mapAstray ⟨0, 0, 2⟩ = true) ∧
    canEnterTile Example.mapAstray (some (Example.mapAstray.tiles ⟨0, 0, 0⟩))
      (some (Example.mapAstray.tiles ⟨0, 0, 1⟩)) 7 = some (false, 7) := by
  refine ⟨by decide, by decide, rfl, rfl, rfl, ⟨by decide, by decide, rfl⟩, ?_⟩
  rw [canEnterTile_up_scan Example.mapAstray (Example.mapAstray.tiles ⟨0, 0, 0⟩)
    (Example.mapAstray.tiles ⟨0, 0, 1⟩) 7 Example.junction Example.floorAstray
    (by decide) (by decide) rfl rfl ⟨rfl, rfl⟩ ⟨rfl, rfl⟩ rfl rfl rfl]
  rcases junctionScan_spec Example.mapAstray _ Example.floorAstray.currentPosition (le_refl _)
    (by decide) (by decide) (by decide) (by decide) (by decide) with ⟨_, z, h1, h2, h3⟩ | ⟨hs, _⟩
  · exfalso
    have hz : z = 2 := by
      have e1 : Example.floorAstray.currentPosition.z = 1 := rfl
      have e2 : Example.mapAstray.size.z = 3 := rfl
      omega
    subst hz
    revert h3
    decide
  · rw [hs]

/-- C8 (amended): for an upward move into a `General` destination that passes
every other check (destination on the map, both sceneries present, undamaged
and not falling, the move allowed from both ends), with the destination
scenery's `currentPosition` on the map, `canEnterTile` returns allowed exactly
when some tile strictly above that `currentPosition` in its column, below the
map height, holds a `PeopleTubeJunction`, and returns not-allowed exactly when
that column is clear of junctions.  When the scenery stands on the
destination tile, this is the column above the destination. -/
theorem canEnterTile_up_into_general (map : TileMap) (fromTile toTile : Tile) (cost : Int)
    (sF sT : Scenery)
    (hvalid : map.tileIsValid toTile.position = true)
    (hup : toTile.position - fromTile.position = ⟨0, 0, 1⟩)
    (hF : firstScenery fromTile.ownedObjects = some sF)
    (hT : firstScenery toTile.ownedObjects = some sT)
    (hFok : sF.damaged = false ∧ sF.falling = false)
    (hTok : sT.damaged = false ∧ sT.falling = false)
    (hTty : sT.type.tile_type = TileType.General)
    (hcur : map.tileIsValid sT.currentPosition = true)
    (hmF : isMoveAllowed sF 4 = some true)
    (hmT : isMoveAllowed sT 5 = some true) :
    ((canEnterTile map (some fromTile) (some toTile) cost = some (true, 1) ↔
        ∃ z, sT.currentPosition.z < z ∧ z < map.size.z ∧
          holdsJunction map ⟨sT.currentPosition.x, sT.currentPosition.y, z⟩ = true) ∧
      (canEnterTile map (some fromTile) (some toTile) cost = some (false, cost) ↔
        ¬ ∃ z, sT.currentPosition.z < z ∧ z < map.size.z ∧
          holdsJunction map ⟨sT.currentPosition.x, sT.currentPosition.y, z⟩ = true)) ∧
    (sT.currentPosition = toTile.position →
      (canEnterTile map (some fromTile) (some toTile) cost = some (true, 1) ↔
        ∃ z, toTile.position.z < z ∧ z < map.size.z ∧
          holdsJunction map ⟨toTile.position.x, toTile.position.y, z⟩ = true) ∧
      (canEnterTile map (some fromTile) (some toTile) cost = some (false, cost) ↔
        ¬ ∃ z, toTile.position.z < z ∧ z < map.size.z ∧
          holdsJunction map ⟨toTile.position.x, toTile.position.y, z⟩ = true)) := by
  have hbounds := hcur
  simp only [TileMap.tileIsValid, Bool.and_eq_true, decide_eq_true_eq] at hbounds
  obtain ⟨⟨⟨⟨⟨hx0, hx1⟩, hy0⟩, hy1⟩, hz0⟩, _⟩ := hbounds
  have hcan := canEnterTile_up_scan map fromTile toTile cost sF sT hvalid hup hF hT hFok hTok
    hTty hmF hmT
  have main : (canEnterTile map (some fromTile) (some toTile) cost = some (true, 1) ↔
        ∃ z, sT.currentPosition.z < z ∧ z < map.size.z ∧
          holdsJunction map ⟨sT.currentPosition.x, sT.currentPosition.y, z⟩ = true) ∧
      (canEnterTile map (some fromTile) (some toTile) cost = some (false, cost) ↔
        ¬ ∃ z, sT.currentPosition.z < z ∧ z < map.size.z ∧
          holdsJunction map ⟨sT.currentPosition.x, sT.currentPosition.y, z⟩ = true) := by
    rw [hcan]
    rcases junctionScan_spec map _ sT.currentPosition (le_refl _) hx0 hx1 hy0 hy1
      (by omega) with ⟨hs, hex⟩ | ⟨hs, hall⟩
    · rw [hs]
      simp only [true_iff, hex, not_true_eq_false, iff_false]
      exact ⟨trivial, by simp⟩
    · have hnex : ¬ ∃ z, sT.currentPosition.z < z ∧ z < map.size.z ∧
          holdsJunction map ⟨sT.currentPosition.x, sT.currentPosition.y, z⟩ = true := by
        rintro ⟨z, h1, h2, h3⟩
        rw [hall z h1 h2] at h3
        cases h3
      rw [hs]
      simp only [hnex, not_false_eq_true, iff_true, iff_false]
      exact ⟨by simp, trivial⟩
  refine ⟨main, fun hpos => ?_⟩
  rw [← hpos]
  exact main

/-! ### The theorems above at concrete tiles -/

/-- C4 at a concrete input: the diagonal neighbour of the origin of the example
map is refused. -/
theorem canEnterTile_denies_non_unit_step_witness :
    canEnterTile Example.map (some (Example.tileAt ⟨0, 0, 0⟩))
      (some (Example.tileAt ⟨1, 1, 0⟩)) 7 = some (false, 7) :=
  canEnterTile_denies_non_unit_step Example.map (Example.tileAt ⟨0, 0, 0⟩)
    (Example.tileAt ⟨1, 1, 0⟩) 7 (by decide)

/-- C5 at a concrete input: a damaged tube east of the junction is refused. -/
theorem canEnterTile_denies_unstable_witness :
    canEnterTile Example.map (some (Example.tileAt ⟨0, 0, 0⟩))
      (some Example.damagedTile) 7 = some (false, 7) :=
  canEnterTile_denies_unstable Example.map (Example.tileAt ⟨0, 0, 0⟩) Example.damagedTile 7
    (Or.inr (Or.inr (Or.inr ⟨_, rfl, Or.inl rfl⟩)))

/-- C6 at a concrete input: the junction at the origin does not open sideways
into the building floor south of it. -/
theorem canEnterTile_junction_lateral_witness :
    (∀ c, canEnterTile Example.map (some (Example.tileAt ⟨0, 0, 0⟩))
        (some (Example.tileAt ⟨0, 1, 0⟩)) 7 = some (true, c) →
        Example.floorSouth.type.tile_type = TileType.PeopleTubeJunction ∨
        Example.floorSouth.type.tile_type = TileType.PeopleTube) ∧
    canEnterTile Example.map (some (Example.tileAt ⟨0, 0, 0⟩))
      (some (Example.tileAt ⟨0, 1, 0⟩)) 7 = some (false, 7) :=
  have h := canEnterTile_junction_lateral Example.map (Example.tileAt ⟨0, 0, 0⟩)
    (Example.tileAt ⟨0, 1, 0⟩) 7 Example.junction Example.floorSouth rfl rfl rfl (by decide)
  ⟨h.1, h.2 (Or.inl rfl)⟩

/-- C7 at a concrete input: the junction at the origin opens east into the
tube, whose mask is set towards the west. -/
theorem canEnterTile_junction_into_tube_witness :
    canEnterTile Example.map (some (Example.tileAt ⟨0, 0, 0⟩))
      (some (Example.tileAt ⟨1, 0, 0⟩)) 7 = some (true, 1) :=
  canEnterTile_junction_into_tube Example.map (Example.tileAt ⟨0, 0, 0⟩)
    (Example.tileAt ⟨1, 0, 0⟩) 7 Example.junction Example.tube 1
    (by decide) (by decide) (by decide) rfl rfl ⟨rfl, rfl⟩ ⟨rfl, rfl⟩ rfl rfl rfl rfl

/-- C8 at a concrete input: the floor above the origin stands on its tile and
has a junction one level higher, so it can be entered from below. -/
theorem canEnterTile_up_into_general_witness :
    canEnterTile Example.map (some (Example.tileAt ⟨0, 0, 0⟩))
      (some (Example.tileAt ⟨0, 0, 1⟩)) 7 = some (true, 1) :=
  ((canEnterTile_up_into_general Example.map (Example.tileAt ⟨0, 0, 0⟩)
    (Example.tileAt ⟨0, 0, 1⟩) 7 Example.junction Example.floorAbove
    (by decide) (by decide) rfl rfl ⟨rfl, rfl⟩ ⟨rfl, rfl⟩ rfl (by decide) rfl rfl).2 rfl).1.mpr
    ⟨2, by decide, by decide, rfl⟩

end AgentTileHelper

namespace AgentMission

/-! ## Mission life cycle: theorems -/

/-- The unsigned subtraction of line 341 does not wrap when it is reached. -/
theorem snooze_sub_no_wrap (t k : Nat) (hk : k < t) (ht : t < 2 ^ 32) :
    (t + 2 ^ 32 - k) % 2 ^ 32 = t - k := by
  have h : t + 2 ^ 32 - k = (t - k) + 2 ^ 32 := by omega
  rw [h, Nat.add_mod_right]
  exact Nat.mod_eq_of_lt (by omega)

/-- C9 (as stated, refuted): a cancelled snooze mission of ten ticks updated by
four ticks is left with six ticks, which is not zero, and yet it is finished;
so "finished iff the new value is 0" fails for it. -/
theorem update_snooze_cancelled_finished :
    (update Example.collaborators
        ⟨Example.gameState, Example.cancelledSnooze, Example.agent⟩ 4 false).mission.timeToSnooze
      = 6 ∧
    isFinishedInternal
      (update Example.collaborators
        ⟨Example.gameState, Example.cancelledSnooze, Example.agent⟩ 4 false).mission
      (update Example.collaborators
        ⟨Example.gameState, Example.cancelledSnooze, Example.agent⟩ 4 false).agent = true ∧
    ¬ (isFinishedInternal
        (update Example.collaborators
          ⟨Example.gameState, Example.cancelledSnooze, Example.agent⟩ 4 false).mission
        (update Example.collaborators
          ⟨Example.gameState, Example.cancelledSnooze, Example.agent⟩ 4 false).agent = true ↔
      (update Example.collaborators
        ⟨Example.gameState, Example.cancelledSnooze, Example.agent⟩ 4 false).mission.timeToSnooze
        = 0) := by
  decide

/-- C9 (amended): for a snooze mission with remaining time `t` below `2 ^ 32`
and every tick count `k`, `update` sets `timeToSnooze` to `t - k` when `k < t`
and to `0` when `k ≥ t`, never wrapping around and never above `t`, and
changes nothing else; afterwards the mission is finished iff it is cancelled
or the new value is 0, hence for a mission that is not cancelled iff the new
value is 0. -/
theorem update_snooze_saturates (env : Collaborators) (c : Frame) (ticks : Nat)
    (finished : Bool)
    (hty : c.mission.type = MissionType.Snooze) (ht : c.mission.timeToSnooze < 2 ^ 32) :
    (ticks < c.mission.timeToSnooze →
      (update env c ticks finished).mission.timeToSnooze = c.mission.timeToSnooze - ticks) ∧
    (c.mission.timeToSnooze ≤ ticks →
      (update env c ticks finished).mission.timeToSnooze = 0) ∧
    (update env c ticks finished).mission.timeToSnooze ≤ c.mission.timeToSnooze ∧
    update env c ticks finished =
      { c with mission :=
          { c.mission with timeToSnooze := (update env c ticks finished).mission.timeToSnooze } } ∧
    isFinishedInternal (update env c ticks finished).mission (update env c ticks finished).agent
      = (c.mission.cancelled || decide ((update env c ticks finished).mission.timeToSnooze = 0)) ∧
    (c.mission.cancelled = false →
      (isFinishedInternal (update env c ticks finished).mission
          (update env c ticks finished).agent = true ↔
        (update env c ticks finished).mission.timeToSnooze = 0)) := by
  by_cases hk : ticks < c.mission.timeToSnooze
  · have hnot : ¬ (ticks ≥ c.mission.timeToSnooze) := by omega
    have hu : update env c ticks finished =
        { c with mission := { c.mission with timeToSnooze := c.mission.timeToSnooze - ticks } } := by
      unfold update
      simp only [hty, if_neg hnot, snooze_sub_no_wrap _ _ hk ht]
    rw [hu]
    refine ⟨fun _ => rfl, fun h => absurd h (by omega), Nat.sub_le _ _, rfl, ?_, ?_⟩
    · simp only [isFinishedInternal, hty]
      cases c.mission.cancelled <;> simp
    · intro hc
      simp only [isFinishedInternal, hty, hc]
      simp
  · have hge : ticks ≥ c.mission.timeToSnooze := by omega
    have hu : update env c ticks finished =
        { c with mission := { c.mission with timeToSnooze := 0 } } := by
      unfold update
      simp only [hty, if_pos hge]
    rw [hu]
    refine ⟨fun h => absurd h hk, fun _ => rfl, Nat.zero_le _, rfl, ?_, ?_⟩
    · simp only [isFinishedInternal, hty]
      cases c.mission.cancelled <;> simp
    · intro hc
      simp only [isFinishedInternal, hty, hc]
      simp

/-- C9 at a concrete input: a fresh snooze mission of ten ticks updated by four
ticks has six ticks left and is not finished; updated then by ten more ticks
it has none left and is finished. -/
theorem update_snooze_saturates_witness :
    ((update Example.collaborators Example.snoozeFrame 4 false).mission.timeToSnooze = 6 ∧
     ¬ isFinishedInternal
        (update Example.collaborators Example.snoozeFrame 4 false).mission
        (update Example.collaborators Example.snoozeFrame 4 false).agent = true) ∧
    ((update Example.collaborators
        (update Example.collaborators Example.snoozeFrame 4 false) 10 false).mission.timeToSnooze
        = 0 ∧
     isFinishedInternal
        (update Example.collaborators
          (update Example.collaborators Example.snoozeFrame 4 false) 10 false).mission
        (update Example.collaborators
          (update Example.collaborators Example.snoozeFrame 4 false) 10 false).agent = true) :=
  have h1 := update_snooze_saturates Example.collaborators Example.snoozeFrame 4 false rfl
    (by decide)
  have h2 := update_snooze_saturates Example.collaborators
    (update Example.collaborators Example.snoozeFrame 4 false) 10 false rfl (by decide)
  have e1 := h1.1 (by decide)
  have e2 := h2.2.1 (by decide)
  ⟨⟨e1, fun hf => absurd ((h1.2.2.2.2.2 rfl).mp hf) (by rw [e1]; decide)⟩,
   ⟨e2, (h2.2.2.2.2.2 rfl).mpr e2⟩⟩

/-- C10: `isFinishedInternal` returns true when `cancelled` is set; otherwise it
returns whether the target building is the agent's current building for
`GotoBuilding`, whether `timeToSnooze` is zero for `Snooze`, and true for
`Teleport`, `RestartNextMission` and `AwaitPickup`.  Hence a mission of type
`RestartNextMission` or `Teleport` reports finished right after `start`. -/
theorem isFinishedInternal_rule (env : Collaborators) (c : Frame) (callUpdateIfFinished : Bool) :
    isFinishedInternal c.mission c.agent = isFinishedSpec c.mission c.agent ∧
    (c.mission.type = MissionType.RestartNextMission ∨ c.mission.type = MissionType.Teleport →
      isFinishedInternal (start env c).mission (start env c).agent = true ∧
      (isFinished env (start env c) callUpdateIfFinished).1 = true) := by
  constructor
  · unfold isFinishedInternal isFinishedSpec
    cases c.mission.cancelled <;> cases c.mission.type <;> rfl
  · intro h
    have hm : (start env c).mission = c.mission := by
      unfold start
      rcases h with h | h <;> simp only [h]
    have hfin : isFinishedInternal (start env c).mission (start env c).agent = true := by
      rw [hm]
      unfold isFinishedInternal
      rcases h with h | h <;> simp only [h] <;> cases c.mission.cancelled <;> rfl
    refine ⟨hfin, ?_⟩
    unfold isFinished
    rw [if_pos hfin]
    cases callUpdateIfFinished <;> rfl

/-- C10 at a concrete input: a teleport mission started for an agent that can
teleport reports finished. -/
theorem isFinishedInternal_rule_witness :
    isFinishedInternal
      (start Example.collaborators
        ⟨Example.gameState, teleport (some "HQ"), Example.agent⟩).mission
      (start Example.collaborators
        ⟨Example.gameState, teleport (some "HQ"), Example.agent⟩).agent = true ∧
    (isFinished Example.collaborators
      (start Example.collaborators
        ⟨Example.gameState, teleport (some "HQ"), Example.agent⟩) true).1 = true :=
  (isFinishedInternal_rule Example.collaborators
    ⟨Example.gameState, teleport (some "HQ"), Example.agent⟩ true).2 (Or.inr rfl)

/-! ## Path planning: theorems -/

/-- C14: whatever the mission held before, `setPathTo` ends with `cancelled`
set and an empty planned path when the search returns nothing, and with
`cancelled` unchanged and the planned path equal to the agent's tile followed
by the waypoints of the search, in order, when the search returns some. -/
theorem setPathTo_result (env : Collaborators) (state : GameState) (self : AgentMission)
    (a : Agent) (b : StateRef) :
    (env.findShortestPath a.city.map a.position (state.buildings b).crewQuarters 1000 a = [] →
      (setPathTo env state self a b).cancelled = true ∧
      (setPathTo env state self a b).currentPlannedPath = []) ∧
    (∀ (w : Vec3) (ws : List Vec3),
      env.findShortestPath a.city.map a.position (state.buildings b).crewQuarters 1000 a
        = w :: ws →
      (setPathTo env state self a b).cancelled = self.cancelled ∧
      (setPathTo env state self a b).currentPlannedPath = a.position :: w :: ws ∧
      (setPathTo env state self a b).currentPlannedPath.length = (w :: ws).length + 1) := by
  constructor
  · intro h
    unfold setPathTo
    simp only [h, List.isEmpty_nil, if_true, and_self]
  · intro w ws h
    unfold setPathTo
    simp only [h, List.isEmpty_cons, Bool.false_eq_true, if_false, List.length_cons, and_self]

/-- C14 at concrete inputs: with a previous path of two waypoints, a failed
search leaves the mission cancelled with no path, and a search that finds one
waypoint leaves the path made of the agent's tile and that waypoint. -/
theorem setPathTo_result_witness :
    ((setPathTo Example.collaborators Example.gameState
        (Example.pathFrame false [⟨0, 0, 0⟩, ⟨0, 0, 1⟩]).mission Example.agent
        (some "HQ")).cancelled = true ∧
     (setPathTo Example.collaborators Example.gameState
        (Example.pathFrame false [⟨0, 0, 0⟩, ⟨0, 0, 1⟩]).mission Example.agent
        (some "HQ")).currentPlannedPath = []) ∧
    ((setPathTo Example.collaboratorsWithPath Example.gameState
        (Example.pathFrame false [⟨0, 0, 0⟩, ⟨0, 0, 1⟩]).mission Example.agent
        (some "HQ")).cancelled = false ∧
     (setPathTo Example.collaboratorsWithPath Example.gameState
        (Example.pathFrame false [⟨0, 0, 0⟩, ⟨0, 0, 1⟩]).mission Example.agent
        (some "HQ")).currentPlannedPath = [⟨0, 0, 0⟩, ⟨1, 0, 0⟩]) :=
  have h1 := (setPathTo_result Example.collaborators Example.gameState
    (Example.pathFrame false [⟨0, 0, 0⟩, ⟨0, 0, 1⟩]).mission Example.agent (some "HQ")).1 rfl
  have h2 := (setPathTo_result Example.collaboratorsWithPath Example.gameState
    (Example.pathFrame false [⟨0, 0, 0⟩, ⟨0, 0, 1⟩]).mission Example.agent (some "HQ")).2
    ⟨1, 0, 0⟩ [] rfl
  ⟨h1, h2.1, h2.2.1⟩

/-! ## Path advancement: theorems -/

/-- C15: on a mission whose planned path is empty `advanceAlongPath` reports no
destination and leaves the game state, the mission and the agent, with its
mission queue, as they were. -/
theorem advanceAlongPath_empty (env : Collaborators) (c : Frame)
    (h : c.mission.currentPlannedPath = []) :
    advanceAlongPath env c = some (none, c) := by
  unfold advanceAlongPath
  rw [h]

/-- C15 at a concrete input: a `GotoBuilding` mission without a planned path. -/
theorem advanceAlongPath_empty_witness :
    advanceAlongPath Example.collaborators (Example.pathFrame false [])
      = some (none, Example.pathFrame false []) :=
  advanceAlongPath_empty Example.collaborators (Example.pathFrame false []) rfl

end AgentMission

namespace AgentTileHelper

/-! ## `canEnterTile`: what an answer implies -/

/-- Every way through `canEnterTile` that answers allowed has passed all the
checks of lines 40-98 and has written the squared length of the displacement
to the cost. -/
theorem canEnterTile_allowed_inv (map : TileMap) (tFrom tTo : Option Tile) (cost c : Int)
    (h : canEnterTile map tFrom tTo cost = some (true, c)) :
    ∃ (f t : Tile) (sF sT : Scenery), tFrom = some f ∧ tTo = some t ∧
      f.position ≠ t.position ∧ map.tileIsValid t.position = true ∧
      isUnitStep (t.position - f.position) ∧
      firstScenery f.ownedObjects = some sF ∧ firstScenery t.ownedObjects = some sT ∧
      isMoveAllowed sF (convertDirection (t.position - f.position)) = some true ∧
      isMoveAllowed sT (convertDirection (-(t.position - f.position))) = some true ∧
      c = (f.position - t.position).lengthSq := by
  unfold canEnterTile at h
  cases tFrom with
  | none => simp at h
  | some f =>
    cases tTo with
    | none => simp at h
    | some t =>
      simp only at h
      by_cases h1 : f.position = t.position
      · simp [h1] at h
      · rw [if_neg h1] at h
        by_cases h2 : (!map.tileIsValid t.position) = true
        · simp [h2] at h
        · rw [if_neg h2] at h
          by_cases h3 : intAbs (t.position - f.position).x + intAbs (t.position - f.position).y +
              intAbs (t.position - f.position).z > 1
          · simp [h3] at h
          · rw [if_neg h3] at h
            cases hF : firstScenery f.ownedObjects with
            | none => simp [hF] at h
            | some sF =>
              cases hT : firstScenery t.ownedObjects with
              | none => simp [hF, hT] at h
              | some sT =>
                simp only [hF, hT] at h
                by_cases h4 : (sF.damaged || sT.damaged || sF.falling || sT.falling) = true
                · simp [h4] at h
                · rw [if_neg h4] at h
                  cases hmF : isMoveAllowed sF (convertDirection (t.position - f.position)) with
                  | none => simp [hmF] at h
                  | some bF =>
                    cases bF with
                    | false => simp [hmF] at h
                    | true =>
                      cases hmT : isMoveAllowed sT
                          (convertDirection (-(t.position - f.position))) with
                      | none => simp [hmF, hmT] at h
                      | some bT =>
                        cases bT with
                        | false => simp [hmF, hmT] at h
                        | true =>
                          simp only [hmF, hmT] at h
                          refine ⟨f, t, sF, sT, rfl, rfl, h1, by simpa using h2,
                            isUnitStep_of_abs_le _ _ h1 h3, hF, hT, hmF, hmT, ?_⟩
                          split_ifs at h
                          · simp at h
                          · cases hj : junctionScan map sT.currentPosition with
                            | none => simp [hj] at h
                            | some bj =>
                              cases bj with
                              | false => simp [hj] at h
                              | true =>
                                simp [hj] at h
                                exact h.symm
                          · simp at h
                            exact h.symm

/-- Every way through `canEnterTile` that answers not-allowed returns before
the assignment to the cost at line 144. -/
theorem canEnterTile_denied_inv (map : TileMap) (tFrom tTo : Option Tile) (cost c : Int)
    (h : canEnterTile map tFrom tTo cost = some (false, c)) : c = cost := by
  unfold canEnterTile at h
  cases tFrom with
  | none => simp at h; exact h.symm
  | some f =>
    cases tTo with
    | none => simp at h; exact h.symm
    | some t =>
      simp only at h
      by_cases h1 : f.position = t.position
      · simp [h1] at h; exact h.symm
      · rw [if_neg h1] at h
        by_cases h2 : (!map.tileIsValid t.position) = true
        · simp [h2] at h; exact h.symm
        · rw [if_neg h2] at h
          by_cases h3 : intAbs (t.position - f.position).x + intAbs (t.position - f.position).y +
              intAbs (t.position - f.position).z > 1
          · simp [h3] at h; exact h.symm
          · rw [if_neg h3] at h
            cases hF : firstScenery f.ownedObjects with
            | none => simp [hF] at h; exact h.symm
            | some sF =>
              cases hT : firstScenery t.ownedObjects with
              | none => simp [hF, hT] at h; exact h.symm
              | some sT =>
                simp only [hF, hT] at h
                by_cases h4 : (sF.damaged || sT.damaged || sF.falling || sT.falling) = true
                · simp [h4] at h; exact h.symm
                · rw [if_neg h4] at h
                  cases hmF : isMoveAllowed sF (convertDirection (t.position - f.position)) with
                  | none => simp [hmF] at h
                  | some bF =>
                    cases bF with
                    | false => simp [hmF] at h; exact h.symm
                    | true =>
                      cases hmT : isMoveAllowed sT
                          (convertDirection (-(t.position - f.position))) with
                      | none => simp [hmF, hmT] at h
                      | some bT =>
                        cases bT with
                        | false => simp [hmF, hmT] at h; exact h.symm
                        | true =>
                          simp only [hmF, hmT] at h
                          split_ifs at h
                          · simp at h; exact h.symm
                          · cases hj : junctionScan map sT.currentPosition with
                            | none => simp [hj] at h
                            | some bj =>
                              cases bj with
                              | false => simp [hj] at h; exact h.symm
                              | true => simp [hj] at h
                          · simp at h

theorem Vec3_neg_sub (a b : Vec3) : -(a - b) = b - a := by
  rw [Vec3_eq_iff]
  refine ⟨?_, ?_, ?_⟩
  · show -(a.x - b.x) = b.x - a.x
    omega
  · show -(a.y - b.y) = b.y - a.y
    omega
  · show -(a.z - b.z) = b.z - a.z
    omega

/-- A single-axis unit step has a direction code in `0..5`. -/
theorem convertDirection_of_isUnitStep (dir : Vec3) (h : isUnitStep dir) :
    ∃ d : Fin 6, convertDirection dir = ((d.val : Nat) : Int) := by
  obtain ⟨x, y, z⟩ := dir
  simp only [isUnitStep] at h
  rcases h with ⟨hx | hx, hy, hz⟩ | ⟨hx, hy | hy, hz⟩ | ⟨hx, hy, hz | hz⟩ <;>
    subst hx <;> subst hy <;> subst hz
  · exact ⟨1, rfl⟩
  · exact ⟨3, rfl⟩
  · exact ⟨2, rfl⟩
  · exact ⟨0, rfl⟩
  · exact ⟨4, rfl⟩
  · exact ⟨5, rfl⟩

/-- C18: whenever `canEnterTile` answers allowed, both tiles are given and hold
a scenery, the displacement has a direction code `d` in `0..5`, the reversed
displacement has the opposite code, `isMoveAllowed` holds for the source
scenery in direction `d` and for the destination scenery in the opposite
direction; so the sentinel -1 is never handed to `isMoveAllowed`. -/
theorem canEnterTile_legal_both_ends (map : TileMap) (tFrom tTo : Option Tile) (cost c : Int)
    (h : canEnterTile map tFrom tTo cost = some (true, c)) :
    ∃ (f t : Tile) (sF sT : Scenery) (d : Fin 6), tFrom = some f ∧ tTo = some t ∧
      firstScenery f.ownedObjects = some sF ∧ firstScenery t.ownedObjects = some sT ∧
      convertDirection (t.position - f.position) = ((d.val : Nat) : Int) ∧
      convertDirection (f.position - t.position) = (((opposite d).val : Nat) : Int) ∧
      isMoveAllowed sF ((d.val : Nat) : Int) = some true ∧
      isMoveAllowed sT (((opposite d).val : Nat) : Int) = some true := by
  obtain ⟨f, t, sF, sT, hf, ht, _, _, hstep, hF, hT, hmF, hmT, _⟩ :=
    canEnterTile_allowed_inv map tFrom tTo cost c h
  obtain ⟨d, hd⟩ := convertDirection_of_isUnitStep _ hstep
  have hopp := convertDirection_neg _ hstep d hd
  refine ⟨f, t, sF, sT, d, hf, ht, hF, hT, hd, ?_, ?_, ?_⟩
  · rw [← Vec3_neg_sub, hopp]
  · rw [← hd]; exact hmF
  · rw [← hopp]; exact hmT

/-- C18 at a concrete input: the move from the junction at the origin east into
the tube. -/
theorem canEnterTile_legal_both_ends_witness :
    ∃ (f t : Tile) (sF sT : Scenery) (d : Fin 6),
      some (Example.tileAt ⟨0, 0, 0⟩) = some f ∧ some (Example.tileAt ⟨1, 0, 0⟩) = some t ∧
      firstScenery f.ownedObjects = some sF ∧ firstScenery t.ownedObjects = some sT ∧
      convertDirection (t.position - f.position) = ((d.val : Nat) : Int) ∧
      convertDirection (f.position - t.position) = (((opposite d).val : Nat) : Int) ∧
      isMoveAllowed sF ((d.val : Nat) : Int) = some true ∧
      isMoveAllowed sT (((opposite d).val : Nat) : Int) = some true :=
  canEnterTile_legal_both_ends Example.map (some (Example.tileAt ⟨0, 0, 0⟩))
    (some (Example.tileAt ⟨1, 0, 0⟩)) 7 1 (by decide)

/-- C19: whenever `canEnterTile` answers allowed the cost written is 1, the
squared distance between the two tiles, which are one orthogonal step apart;
whenever it answers not-allowed the cost variable keeps its old content. -/
theorem canEnterTile_cost (map : TileMap) (tFrom tTo : Option Tile) (cost c : Int)
    (allowed : Bool) (h : canEnterTile map tFrom tTo cost = some (allowed, c)) :
    (allowed = true → c = 1 ∧ ∃ f t : Tile, tFrom = some f ∧ tTo = some t ∧
      isUnitStep (t.position - f.position) ∧ (f.position - t.position).lengthSq = 1) ∧
    (allowed = false → c = cost) := by
  constructor
  · intro ha
    subst ha
    obtain ⟨f, t, sF, sT, hf, ht, _, _, hstep, _, _, _, _, hc⟩ :=
      canEnterTile_allowed_inv map tFrom tTo cost c h
    have hlen := lengthSq_of_isUnitStep _ _ hstep
    exact ⟨by rw [hc, hlen], f, t, hf, ht, hstep, hlen⟩
  · intro ha
    subst ha
    exact canEnterTile_denied_inv map tFrom tTo cost c h

/-- C19 at concrete inputs: the allowed move from the junction east into the
tube costs 1, and the refused move from the junction south into the building
floor leaves the cost at its old content 7. -/
theorem canEnterTile_cost_witness :
    canEnterTile Example.map (some (Example.tileAt ⟨0, 0, 0⟩))
      (some (Example.tileAt ⟨1, 0, 0⟩)) 7 = some (true, 1) ∧
    canEnterTile Example.map (some (Example.tileAt ⟨0, 0, 0⟩))
      (some (Example.tileAt ⟨0, 1, 0⟩)) 7 = some (false, 7) ∧
    ((1 : Int) = 1 ∧ ∃ f t : Tile, some (Example.tileAt ⟨0, 0, 0⟩) = some f ∧
      some (Example.tileAt ⟨1, 0, 0⟩) = some t ∧
      isUnitStep (t.position - f.position) ∧ (f.position - t.position).lengthSq = 1) ∧
    (7 : Int) = 7 :=
  ⟨by decide, by decide,
   (canEnterTile_cost Example.map (some (Example.tileAt ⟨0, 0, 0⟩))
      (some (Example.tileAt ⟨1, 0, 0⟩)) 7 1 true (by decide)).1 rfl,
   (canEnterTile_cost Example.map (some (Example.tileAt ⟨0, 0, 0⟩))
      (some (Example.tileAt ⟨0, 1, 0⟩)) 7 7 false (by decide)).2 rfl⟩

/-! ## Distances: theorems -/

theorem roundHalfEven_intCast (n : Int) : roundHalfEven (n : ℚ) = n := by
  unfold roundHalfEven
  simp

/-- Single precision holds every integer of magnitude at most `2 ^ 24`. -/
theorem binary32_roundsIntegersExactly : roundsIntegersExactly binary32 := by
  intro n h1 h2
  unfold binary32
  by_cases h0 : (n : ℚ) = 0
  · rw [if_pos h0, h0]
  · rw [if_neg h0]
    have hn0 : n ≠ 0 := by
      intro h; apply h0; rw [h]; simp
    have habs_pos : (0 : ℚ) < |(n : ℚ)| := abs_pos.mpr h0
    set e := Int.log 2 |(n : ℚ)| with he
    have hle : (2 : ℚ) ^ e ≤ |(n : ℚ)| := by
      have := Int.zpow_log_le_self (b := 2) (r := |(n : ℚ)|) (by norm_num) habs_pos
      simpa using this
    have hlt : |(n : ℚ)| < (2 : ℚ) ^ (e + 1) := by
      have := Int.lt_zpow_succ_log_self (b := 2) (by norm_num) (|(n : ℚ)|)
      simpa using this
    have habs1 : (1 : ℚ) ≤ |(n : ℚ)| := by
      have : (1 : ℤ) ≤ |n| := Int.one_le_abs hn0
      have h3 : ((1 : ℤ) : ℚ) ≤ ((|n| : ℤ) : ℚ) := Int.cast_le.mpr this
      simpa using h3
    have he0 : 0 ≤ e := by
      by_contra hneg
      push_neg at hneg
      have : (2 : ℚ) ^ (e + 1) ≤ (2 : ℚ) ^ (0 : ℤ) :=
        zpow_le_zpow_right₀ (by norm_num) (by omega)
      have : |(n : ℚ)| < 1 := lt_of_lt_of_le hlt (by simpa using this)
      linarith
    have habs24 : |(n : ℚ)| ≤ (2 : ℚ) ^ (24 : ℤ) := by
      have : |n| ≤ 16777216 := abs_le.mpr ⟨h1, h2⟩
      have h3 : ((|n| : ℤ) : ℚ) ≤ ((16777216 : ℤ) : ℚ) := Int.cast_le.mpr this
      norm_num at h3 ⊢
      simpa using h3
    have he24 : e ≤ 24 := by
      by_contra hbig
      push_neg at hbig
      have : (2 : ℚ) ^ (25 : ℤ) ≤ (2 : ℚ) ^ e :=
        zpow_le_zpow_right₀ (by norm_num) (by omega)
      have h25 : (2 : ℚ) ^ (25 : ℤ) ≤ |(n : ℚ)| := le_trans this hle
      have : (2 : ℚ) ^ (24 : ℤ) < (2 : ℚ) ^ (25 : ℤ) := by norm_num
      linarith
    by_cases hsmall : e ≤ 23
    · have hk : 23 - e = ((23 - e).toNat : ℤ) := (Int.toNat_of_nonneg (by omega)).symm
      have hk2 : e - 23 = -((23 - e).toNat : ℤ) := by omega
      rw [hk, hk2, zpow_natCast, zpow_neg, zpow_natCast]
      have hcast : (n : ℚ) * (2 : ℚ) ^ (23 - e).toNat
          = ((n * 2 ^ (23 - e).toNat : ℤ) : ℚ) := by
        push_cast
        ring
      rw [hcast, roundHalfEven_intCast]
      push_cast
      field_simp
    · have he2 : e = 24 := by omega
      rw [he2] at hle
      have hnabs : |n| = 16777216 := by
        have h3 : ((16777216 : ℤ) : ℚ) ≤ ((|n| : ℤ) : ℚ) := by
          norm_num at hle ⊢
          simpa using hle
        have h4 : (16777216 : ℤ) ≤ |n| := Int.cast_le.mp h3
        have : |n| ≤ 16777216 := abs_le.mpr ⟨h1, h2⟩
        omega
      rw [he2]
      have hcast : (n : ℚ) * (2 : ℚ) ^ ((23 : ℤ) - 24) = ((n / 2 : ℤ) : ℚ) := by
        rcases abs_eq (by norm_num : (0 : ℤ) ≤ 16777216) |>.mp hnabs with h | h <;>
          subst h <;> norm_num
      rw [hcast, roundHalfEven_intCast]
      rcases abs_eq (by norm_num : (0 : ℤ) ≤ 16777216) |>.mp hnabs with h | h <;>
        subst h <;> norm_num

/-- On integer coordinates in `-1000 .. 1000` the three float operations of one
axis are exact, and the offset of the axis is an integer in `0 .. 2001`. -/
theorem axisDiff_of_int (rnd : ℚ → ℚ) (hrnd : roundsIntegersExactly rnd) (a lo hi : Int)
    (ha : -1000 ≤ a ∧ a ≤ 1000) (hlo : -1000 ≤ lo ∧ lo ≤ 1000) (hhi : -1000 ≤ hi ∧ hi ≤ 1000) :
    axisDiff rnd (a : ℚ) (lo : ℚ) (hi : ℚ) = axisOffsetLastCell (a : ℚ) (lo : ℚ) (hi : ℚ) ∧
    ∃ n : Int, axisOffsetLastCell (a : ℚ) (lo : ℚ) (hi : ℚ) = (n : ℚ) ∧ 0 ≤ n ∧ n ≤ 2001 := by
  have e1 : rnd ((lo : ℚ) - (a : ℚ)) = (lo : ℚ) - (a : ℚ) := by
    have := hrnd (lo - a) (by omega) (by omega)
    push_cast at this
    exact this
  have e2 : rnd ((hi : ℚ) - (a : ℚ)) = (hi : ℚ) - (a : ℚ) := by
    have := hrnd (hi - a) (by omega) (by omega)
    push_cast at this
    exact this
  have e3 : rnd ((hi : ℚ) - (a : ℚ) - 1) = (hi : ℚ) - 1 - (a : ℚ) := by
    have := hrnd (hi - a - 1) (by omega) (by omega)
    push_cast at this
    rw [this]
    ring
  constructor
  · unfold axisDiff axisOffsetLastCell
    simp only [e1, e2, e3]
  · unfold axisOffsetLastCell
    split_ifs
    · exact ⟨0, by simp, le_refl _, by omega⟩
    · refine ⟨min |lo - a| |hi - 1 - a|, by push_cast; rfl, ?_, ?_⟩
      · exact le_min (abs_nonneg _) (abs_nonneg _)
      · exact le_trans (min_le_left _ _) (abs_le.mpr ⟨by omega, by omega⟩)

/-- The float sum of three squares of integers in `0 .. 2001` is exact: every
intermediate result is an integer below `2 ^ 24`. -/
theorem rnd_sum_of_squares (rnd : ℚ → ℚ) (hrnd : roundsIntegersExactly rnd) (a b c : Int)
    (ha : 0 ≤ a ∧ a ≤ 2001) (hb : 0 ≤ b ∧ b ≤ 2001) (hc : 0 ≤ c ∧ c ≤ 2001) :
    rnd (rnd (rnd ((a : ℚ) * a) + rnd ((b : ℚ) * b)) + rnd ((c : ℚ) * c))
      = (a : ℚ) * a + (b : ℚ) * b + (c : ℚ) * c := by
  have sq : ∀ n : Int, 0 ≤ n ∧ n ≤ 2001 → 0 ≤ n * n ∧ n * n ≤ 4004001 := by
    intro n hn
    constructor
    · exact mul_nonneg hn.1 hn.1
    · nlinarith [hn.1, hn.2]
  have r1 : ∀ n : Int, 0 ≤ n ∧ n ≤ 2001 → rnd ((n : ℚ) * n) = (n : ℚ) * n := by
    intro n hn
    have := hrnd (n * n) (by have := sq n hn; omega) (by have := sq n hn; omega)
    push_cast at this
    exact this
  rw [r1 a ha, r1 b hb, r1 c hc]
  have s1 : rnd ((a : ℚ) * a + (b : ℚ) * b) = (a : ℚ) * a + (b : ℚ) * b := by
    have := hrnd (a * a + b * b) (by have := sq a ha; have := sq b hb; omega)
      (by have := sq a ha; have := sq b hb; omega)
    push_cast at this
    exact this
  rw [s1]
  have := hrnd (a * a + b * b + c * c)
    (by have := sq a ha; have := sq b hb; have := sq c hc; omega)
    (by have := sq a ha; have := sq b hb; have := sq c hc; omega)
  push_cast at this
  exact this

/-- On integer coordinates in `-1000 .. 1000` the squared distance computed is
the exact sum of the squares of the per-axis offsets. -/
theorem getDistanceSq_of_int (rnd : ℚ → ℚ) (hrnd : roundsIntegersExactly rnd)
    (p boxMin boxMax : Vec3)
    (hp : tileRange p) (hmin : tileRange boxMin) (hmax : tileRange boxMax) :
    getDistanceSq rnd (toFloat p) (toFloat boxMin) (toFloat boxMax) =
      axisOffsetLastCell p.x boxMin.x boxMax.x * axisOffsetLastCell p.x boxMin.x boxMax.x +
      axisOffsetLastCell p.y boxMin.y boxMax.y * axisOffsetLastCell p.y boxMin.y boxMax.y +
      axisOffsetLastCell p.z boxMin.z boxMax.z * axisOffsetLastCell p.z boxMin.z boxMax.z := by
  obtain ⟨hx, nx, hnx, hx0, hx1⟩ :=
    axisDiff_of_int rnd hrnd p.x boxMin.x boxMax.x hp.1 hmin.1 hmax.1
  obtain ⟨hy, ny, hny, hy0, hy1⟩ :=
    axisDiff_of_int rnd hrnd p.y boxMin.y boxMax.y hp.2.1 hmin.2.1 hmax.2.1
  obtain ⟨hz, nz, hnz, hz0, hz1⟩ :=
    axisDiff_of_int rnd hrnd p.z boxMin.z boxMax.z hp.2.2 hmin.2.2 hmax.2.2
  unfold getDistanceSq toFloat
  simp only [hx, hy, hz, hnx, hny, hnz]
  exact rnd_sum_of_squares rnd hrnd nx ny nz ⟨hx0, hx1⟩ ⟨hy0, hy1⟩ ⟨hz0, hz1⟩

/-- C17 (as stated, refuted): for the point `(10, 0, 0)` and the box from
`(0, 0, 0)` to `(5, 5, 5)` the squared distance computed in single precision
is 36, while the offsets worded with the distances to `boxMin` and `boxMax`
give 25. -/
theorem getDistanceSq_not_to_boxMax :
    getDistanceSq binary32 (toFloat ⟨10, 0, 0⟩) (toFloat ⟨0, 0, 0⟩) (toFloat ⟨5, 5, 5⟩) = 36 ∧
    axisOffsetSpec 10 0 5 * axisOffsetSpec 10 0 5 + axisOffsetSpec 0 0 5 * axisOffsetSpec 0 0 5 +
      axisOffsetSpec 0 0 5 * axisOffsetSpec 0 0 5 = 25 ∧
    getDistanceSq binary32 (toFloat ⟨10, 0, 0⟩) (toFloat ⟨0, 0, 0⟩) (toFloat ⟨5, 5, 5⟩) ≠
      axisOffsetSpec 10 0 5 * axisOffsetSpec 10 0 5 +
        axisOffsetSpec 0 0 5 * axisOffsetSpec 0 0 5 +
        axisOffsetSpec 0 0 5 * axisOffsetSpec 0 0 5 := by
  have h1 : getDistanceSq binary32 (toFloat ⟨10, 0, 0⟩) (toFloat ⟨0, 0, 0⟩)
      (toFloat ⟨5, 5, 5⟩) = 36 := by
    rw [getDistanceSq_of_int binary32 binary32_roundsIntegersExactly ⟨10, 0, 0⟩ ⟨0, 0, 0⟩
      ⟨5, 5, 5⟩ (by decide) (by decide) (by decide)]
    norm_num [axisOffsetLastCell, abs_of_nonneg, abs_of_nonpos]
  have h2 : axisOffsetSpec 10 0 5 * axisOffsetSpec 10 0 5 +
      axisOffsetSpec 0 0 5 * axisOffsetSpec 0 0 5 +
      axisOffsetSpec 0 0 5 * axisOffsetSpec 0 0 5 = 25 := by
    norm_num [axisOffsetSpec, abs_of_nonneg, abs_of_nonpos]
  refine ⟨h1, h2, ?_⟩
  rw [h1, h2]
  norm_num

/-- C17 (amended): for every point and box with integer coordinates in
`-1000 .. 1000`, where each single-precision operation of the function is
exact, the squared distance computed by the box form of `getDistance` is the
squared Euclidean norm of a per-axis offset that is 0 when
`boxMin ≤ p < boxMax` on the axis and otherwise the minimum of `|boxMin - p|`
and `|(boxMax - 1) - p|`: the far face is taken at the last cell of the box,
one short of `boxMax`.  This holds for every rounding that keeps the integers
of magnitude up to `2 ^ 24`, single precision among them. -/
theorem getDistanceSq_eq_offsets (rnd : ℚ → ℚ) (hrnd : roundsIntegersExactly rnd)
    (p boxMin boxMax : Vec3)
    (hp : tileRange p) (hmin : tileRange boxMin) (hmax : tileRange boxMax) :
    getDistanceSq rnd (toFloat p) (toFloat boxMin) (toFloat boxMax) =
      axisOffsetLastCell p.x boxMin.x boxMax.x * axisOffsetLastCell p.x boxMin.x boxMax.x +
      axisOffsetLastCell p.y boxMin.y boxMax.y * axisOffsetLastCell p.y boxMin.y boxMax.y +
      axisOffsetLastCell p.z boxMin.z boxMax.z * axisOffsetLastCell p.z boxMin.z boxMax.z :=
  getDistanceSq_of_int rnd hrnd p boxMin boxMax hp hmin hmax

/-- C17 at a concrete input: in single precision, for the point `(10, 2, 7)` and
the box from `(0, 0, 0)` to `(5, 5, 5)`, the squared distance is
`6 * 6 + 0 * 0 + 3 * 3 = 45`. -/
theorem getDistanceSq_eq_offsets_witness :
    getDistanceSq binary32 (toFloat ⟨10, 2, 7⟩) (toFloat ⟨0, 0, 0⟩) (toFloat ⟨5, 5, 5⟩) = 45 :=
  (getDistanceSq_eq_offsets binary32 binary32_roundsIntegersExactly ⟨10, 2, 7⟩ ⟨0, 0, 0⟩
    ⟨5, 5, 5⟩ (by decide) (by decide) (by decide)).trans
    (by simp [axisOffsetLastCell, abs_of_nonneg, abs_of_nonpos]; norm_num)

end AgentTileHelper

namespace AgentMission

/-! ## Path advancement: an unreachable head and the shortcut scan -/

theorem farApart_eq_not_withinOne (a b : Vec3) : farApart a b = !withinOne a b := by
  unfold farApart withinOne
  by_cases hx : intAbs (a.x - b.x) > 1 <;> by_cases hy : intAbs (a.y - b.y) > 1 <;>
    by_cases hz : intAbs (a.z - b.z) > 1 <;>
    simp [hx, hy, hz, not_le.mpr, not_lt.mp]

/-- The head of the path is found unreachable exactly when it is another tile
than the agent's and is either too far or refused by `canEnterTile`. -/
theorem headInvalid_of_unreachable (map : TileMap) (tFrom tTo : Tile) (pos : Vec3)
    (hne : tFrom.position ≠ pos)
    (hbad : farApart tFrom.position pos = true ∨
      AgentTileHelper.canEnterTileFlag map (some tFrom) (some tTo) 0 = some false) :
    headInvalid map tFrom tTo pos = some true := by
  unfold headInvalid
  rw [if_neg hne]
  by_cases hfar : farApart tFrom.position pos = true
  · rw [if_pos hfar]
  · rw [if_neg hfar]
    rcases hbad with h | h
    · exact absurd h hfar
    · rw [h]
      rfl

/-- When the head of the path is found unreachable the planned path is
cleared, a `RestartNextMission` mission is pushed in front of the queue and
started, and no destination is reported. -/
theorem advanceAlongPath_of_headInvalid (env : Collaborators) (c : Frame) (p0 pos : Vec3)
    (rest : List Vec3) (tFrom tTo : Tile)
    (hpath : c.mission.currentPlannedPath = p0 :: pos :: rest)
    (hfrom : c.agent.city.map.getTile c.agent.position = some tFrom)
    (hto : c.agent.city.map.getTile pos = some tTo)
    (hinv : headInvalid c.agent.city.map tFrom tTo pos = some true) :
    advanceAlongPath env c = some (none,
      { state := c.state,
        mission := { c.mission with currentPlannedPath := [] },
        agent := { c.agent with missions := restartNextMission :: c.agent.missions } }) := by
  unfold advanceAlongPath
  simp only [hpath, hfrom, hto, hinv]
  rfl

/-- C20: when the planned path has at least two waypoints and the second one,
the head after the pop, is not the agent's tile and is either more than one
cell away on some axis or refused by `canEnterTile` from the agent's tile,
`advanceAlongPath` empties the planned path, pushes a fresh
`RestartNextMission` mission in front of the agent's queue, changes nothing
else (so `cancelled` is as before) and reports no destination. -/
theorem advanceAlongPath_invalid_head (env : Collaborators) (c : Frame) (p0 pos : Vec3)
    (rest : List Vec3) (tFrom tTo : Tile)
    (hpath : c.mission.currentPlannedPath = p0 :: pos :: rest)
    (hfrom : c.agent.city.map.getTile c.agent.position = some tFrom)
    (hto : c.agent.city.map.getTile pos = some tTo)
    (hne : tFrom.position ≠ pos)
    (hbad : farApart tFrom.position pos = true ∨
      AgentTileHelper.canEnterTileFlag c.agent.city.map (some tFrom) (some tTo) 0
        = some false) :
    advanceAlongPath env c = some (none,
      { state := c.state,
        mission := { c.mission with currentPlannedPath := [] },
        agent := { c.agent with missions := restartNextMission :: c.agent.missions } }) :=
  advanceAlongPath_of_headInvalid env c p0 pos rest tFrom tTo hpath hfrom hto
    (headInvalid_of_unreachable _ tFrom tTo pos hne hbad)

/-- C20 at a concrete input: from the junction at the origin the building floor
south of it cannot be entered, so a path leading there is dropped. -/
theorem advanceAlongPath_invalid_head_witness :
    advanceAlongPath Example.collaborators
        (Example.pathFrame false [⟨0, 0, 0⟩, ⟨0, 1, 0⟩, ⟨1, 1, 0⟩])
      = some (none,
          { state := Example.gameState,
            mission := (Example.pathFrame false []).mission,
            agent := { Example.agent with missions := [restartNextMission] } }) :=
  advanceAlongPath_invalid_head Example.collaborators
    (Example.pathFrame false [⟨0, 0, 0⟩, ⟨0, 1, 0⟩, ⟨1, 1, 0⟩]) ⟨0, 0, 0⟩ ⟨0, 1, 0⟩ [⟨1, 1, 0⟩]
    (Example.tileAt ⟨0, 0, 0⟩) (Example.tileAt ⟨0, 1, 0⟩) rfl rfl rfl (by decide)
    (Or.inr (by decide))

/-- A list of waypoints that is not a planned path (the hop from the second to
the third waypoint is diagonal): the agent stands on the junction at the
origin, the third waypoint, the tube to the east, is directly reachable, but
the second, the building floor to the south, cannot be entered; the head
check drops the whole list before the shortcut scan is reached. -/
theorem advanceAlongPath_drops_unreachable_head :
    (withinOne ⟨0, 0, 0⟩ ⟨1, 0, 0⟩ = true ∧
      AgentTileHelper.canEnterTileFlag Example.map (some (Example.tileAt ⟨0, 0, 0⟩))
        (some (Example.tileAt ⟨1, 0, 0⟩)) 0 = some true) ∧
    ((⟨1, 1, 0⟩ : Vec3) ≠ ⟨0, 0, 0⟩ ∧
      AgentTileHelper.canEnterTileFlag Example.map (some (Example.tileAt ⟨0, 0, 0⟩))
        (some (Example.tileAt ⟨1, 1, 0⟩)) 0 = some false) ∧
    advanceAlongPath Example.collaborators
        (Example.pathFrame false [⟨0, 0, 0⟩, ⟨0, 1, 0⟩, ⟨1, 0, 0⟩, ⟨1, 1, 0⟩])
      = some (none,
          { state := Example.gameState,
            mission := (Example.pathFrame false []).mission,
            agent := { Example.agent with missions := [restartNextMission] } }) :=
  ⟨⟨by decide, by decide⟩, ⟨by decide, by decide⟩,
   advanceAlongPath_of_headInvalid Example.collaborators
    (Example.pathFrame false [⟨0, 0, 0⟩, ⟨0, 1, 0⟩, ⟨1, 0, 0⟩, ⟨1, 1, 0⟩]) ⟨0, 0, 0⟩ ⟨0, 1, 0⟩
    [⟨1, 0, 0⟩, ⟨1, 1, 0⟩] (Example.tileAt ⟨0, 0, 0⟩) (Example.tileAt ⟨0, 1, 0⟩) rfl rfl rfl
    (by decide)⟩

/-- The centre of the cell east of the origin. -/
theorem tileCentre_east : tileCentre ⟨1, 0, 0⟩ = ⟨3 / 2, 1 / 2, 1 / 2⟩ := by
  unfold tileCentre
  congr 1 <;> norm_num

theorem setPathTo_cancelled (env : Collaborators) (state : GameState) (self : AgentMission)
    (a : Agent) (b : StateRef) (h : self.cancelled = true) :
    (setPathTo env state self a b).cancelled = true := by
  unfold setPathTo
  simp only
  split_ifs
  · rfl
  · exact h

theorem isFinishedInternal_of_cancelled (self : AgentMission) (a : Agent)
    (h : self.cancelled = true) : isFinishedInternal self a = true := by
  unfold isFinishedInternal
  rw [if_pos h]

theorem update_cancelled (env : Collaborators) (c : Frame) (ticks : Nat) (finished : Bool)
    (h : c.mission.cancelled = true) :
    (update env c ticks finished).mission.cancelled = true := by
  unfold update
  simp only [isFinishedInternal_of_cancelled c.mission c.agent h, Bool.or_true, if_true]
  cases c.mission.type <;> dsimp only <;> (try split_ifs) <;> exact h

theorem start_cancelled (env : Collaborators) (c : Frame) (h : c.mission.cancelled = true) :
    (start env c).mission.cancelled = true := by
  unfold start
  cases c.mission.type <;> simp only [h]
  split_ifs
  · exact h
  · exact h
  · exact setPathTo_cancelled env _ _ _ _ h
  · exact h

/-- The only field of the mission that `advanceAlongPath` writes is the planned
path. -/
theorem advanceAlongPath_mission (env : Collaborators) (c : Frame)
    (r : Option Vec3f × Frame) (h : advanceAlongPath env c = some r) :
    ∃ path, r.2.mission = { c.mission with currentPlannedPath := path } := by
  unfold advanceAlongPath at h
  cases hp : c.mission.currentPlannedPath with
  | nil =>
    simp only [hp] at h
    cases h
    exact ⟨[], by rw [← hp]⟩
  | cons p0 popped =>
    cases popped with
    | nil =>
      simp only [hp] at h
      cases h
      exact ⟨[], rfl⟩
    | cons pos rest =>
      simp only [hp] at h
      cases hf : c.agent.city.map.getTile c.agent.position with
      | none => simp [hf] at h
      | some tFrom =>
        cases ht : c.agent.city.map.getTile pos with
        | none => simp [hf, ht] at h
        | some tTo =>
          cases hi : headInvalid c.agent.city.map tFrom tTo pos with
          | none => simp [hf, ht, hi] at h
          | some bad =>
            cases bad with
            | true =>
              simp only [hf, ht, hi] at h
              cases h
              exact ⟨[], rfl⟩
            | false =>
              cases hs : shortcutScan c.agent.city.map tFrom pos rest with
              | none => simp [hf, ht, hi, hs] at h
              | some res =>
                simp only [hf, ht, hi, hs] at h
                cases h
                exact ⟨_, rfl⟩

/-- A frame whose mission is cancelled stays so, and `isFinished` returns true
on it. -/
theorem staysCancelled_of_cancelled (env : Collaborators) (c : Frame)
    (h : c.mission.cancelled = true) : staysCancelled env c := by
  refine ⟨h, fun cu => ?_⟩
  unfold isFinished
  rw [if_pos (isFinishedInternal_of_cancelled _ _ h)]
  cases cu <;> rfl

/-- C11: `cancelled` is a one-way latch.  On a mission with `cancelled` set,
`start`, `update`, `isFinished` and `setPathTo` leave it set,
`getNextDestination` returns at once without a destination and without
touching anything, `advanceAlongPath` leaves it set whenever it has a result,
and after each of them `isFinished` returns true, whatever the mission type. -/
theorem cancelled_is_latched (env : Collaborators) (c : Frame) (ticks : Nat)
    (finished callUpdateIfFinished : Bool) (b : StateRef)
    (h : c.mission.cancelled = true) :
    staysCancelled env (start env c) ∧
    staysCancelled env (update env c ticks finished) ∧
    getNextDestination env c = some (none, c) ∧
    ((isFinished env c callUpdateIfFinished).1 = true ∧
      staysCancelled env (isFinished env c callUpdateIfFinished).2) ∧
    staysCancelled env { c with mission := setPathTo env c.state c.mission c.agent b } ∧
    (∀ r, advanceAlongPath env c = some r → staysCancelled env r.2) := by
  refine ⟨staysCancelled_of_cancelled _ _ (start_cancelled env c h),
    staysCancelled_of_cancelled _ _ (update_cancelled env c ticks finished h), ?_, ?_,
    staysCancelled_of_cancelled _ _ (setPathTo_cancelled env _ _ _ b h), ?_⟩
  · unfold getNextDestination
    rw [if_pos h]
  · have hfin := isFinishedInternal_of_cancelled c.mission c.agent h
    unfold isFinished
    rw [if_pos hfin]
    cases callUpdateIfFinished
    · exact ⟨rfl, staysCancelled_of_cancelled _ _ h⟩
    · exact ⟨rfl, staysCancelled_of_cancelled _ _ (update_cancelled env c 0 true h)⟩
  · intro r hr
    obtain ⟨path, hpath⟩ := advanceAlongPath_mission env c r hr
    apply staysCancelled_of_cancelled
    rw [hpath]
    exact h

/-- C11 at a concrete input: a cancelled `GotoBuilding` mission with one
waypoint left; `advanceAlongPath` has a result on it, and the mission is still
cancelled and finished afterwards. -/
theorem cancelled_is_latched_witness :
    staysCancelled Example.collaborators (start Example.collaborators Example.cancelledPathFrame) ∧
    staysCancelled Example.collaborators
      (update Example.collaborators Example.cancelledPathFrame 3 false) ∧
    getNextDestination Example.collaborators Example.cancelledPathFrame
      = some (none, Example.cancelledPathFrame) ∧
    staysCancelled Example.collaborators
      { Example.cancelledPathFrame with
          mission := { Example.cancelledPathFrame.mission with currentPlannedPath := [] } } :=
  have h := cancelled_is_latched Example.collaborators Example.cancelledPathFrame 3 false true
    (some "HQ") rfl
  ⟨h.1, h.2.1, h.2.2.1, h.2.2.2.2.2 _ rfl⟩

/-! ## Starting a `GotoBuilding` mission: theorems -/

/-- The `Teleport` case leaves the agent as `enterBuilding` returns it when the
agent can teleport. -/
theorem startTeleportCase_agent (env : Collaborators) (state : GameState) (b : StateRef)
    (a : Agent) (hcan : env.canTeleport a = true) :
    (startTeleportCase env state b a).2 = (env.enterBuilding state a b).2 := by
  unfold startTeleportCase
  simp only [hcan, Bool.not_true, Bool.false_eq_true, if_false]
  split_ifs <;> rfl

/-- When the teleport check succeeds, `start` returns right after it: the
mission is untouched and the agent is the one `enterBuilding` returns for the
agent with the teleport mission pushed in front of its queue. -/
theorem start_of_teleportCheck (env : Collaborators) (c : Frame)
    (hty : c.mission.type = MissionType.GotoBuilding)
    (hallow : c.mission.allowTeleporter = true)
    (hcan : env.canTeleport c.agent = true)
    (hcan1 : env.canTeleport
      { c.agent with missions := teleport c.mission.targetBuilding :: c.agent.missions } = true) :
    (start env c).mission = c.mission ∧
    (start env c).agent = (env.enterBuilding c.state
      { c.agent with missions := teleport c.mission.targetBuilding :: c.agent.missions }
      c.mission.targetBuilding).2 := by
  have ht : teleportCheck env c.state c.mission c.agent =
      (true,
       (startTeleportCase env c.state c.mission.targetBuilding
          { c.agent with missions := teleport c.mission.targetBuilding :: c.agent.missions }).1,
       (startTeleportCase env c.state c.mission.targetBuilding
          { c.agent with missions := teleport c.mission.targetBuilding :: c.agent.missions }).2) := by
    unfold teleportCheck
    simp only [hallow, hcan, Bool.and_self, if_true]
    rfl
  unfold start
  simp only [hty, ht, if_true]
  exact ⟨trivial, startTeleportCase_agent env _ _ _ hcan1⟩

/-- C12 (as stated, refuted): a `GotoBuilding` mission for "HQ" with
`allowTeleporter` set, for an agent that can teleport and is in no building:
after `start` the teleport mission is in front of the queue, but the agent is
already in "HQ" and `isFinished` returns true on the `GotoBuilding` mission. -/
theorem start_teleport_already_finished :
    (Example.pathFrame true []).mission.type = MissionType.GotoBuilding ∧
    (Example.pathFrame true []).mission.allowTeleporter = true ∧
    Example.collaborators.canTeleport (Example.pathFrame true []).agent = true ∧
    (Example.pathFrame true []).agent.currentBuilding
      ≠ (Example.pathFrame true []).mission.targetBuilding ∧
    (start Example.collaborators (Example.pathFrame true [])).agent.missions
      = [teleport (some "HQ")] ∧
    (isFinished Example.collaborators
      (start Example.collaborators (Example.pathFrame true [])) false).1 = true := by
  refine ⟨rfl, rfl, rfl, ?_, rfl, ?_⟩
  · decide
  · decide

/-- C12 (amended): for a `GotoBuilding` mission with `allowTeleporter` set whose
agent can teleport, `start` pushes a `Teleport` mission for the same target
building in front of the agent's queue, ahead of the original mission, and
starts it at once: the agent enters the target building during `start`.  The
`GotoBuilding` mission itself is untouched, and after `start` returns it is
already finished, since the agent's current building is now its target. -/
theorem start_teleport_enters_building (env : Collaborators) (c : Frame)
    (callUpdateIfFinished : Bool)
    (hty : c.mission.type = MissionType.GotoBuilding)
    (hallow : c.mission.allowTeleporter = true)
    (hcan : env.canTeleport c.agent = true)
    (hqueue : env.teleportIgnoresQueue)
    (henter : env.entersBuilding) :
    (start env c).agent.missions = teleport c.mission.targetBuilding :: c.agent.missions ∧
    (start env c).mission = c.mission ∧
    (start env c).agent.currentBuilding = c.mission.targetBuilding ∧
    (isFinished env (start env c) callUpdateIfFinished).1 = true := by
  have hcan1 : env.canTeleport
      { c.agent with missions := teleport c.mission.targetBuilding :: c.agent.missions }
      = true := by
    rw [hqueue c.agent _]
    exact hcan
  obtain ⟨hm, ha⟩ := start_of_teleportCheck env c hty hallow hcan hcan1
  have he := henter c.state
    { c.agent with missions := teleport c.mission.targetBuilding :: c.agent.missions }
    c.mission.targetBuilding
  have hcur : (start env c).agent.currentBuilding = c.mission.targetBuilding := by
    rw [ha]
    exact he.1
  have hfin : isFinishedInternal (start env c).mission (start env c).agent = true := by
    unfold isFinishedInternal
    rw [hm, hcur]
    simp only [hty, decide_True, ite_self]
  refine ⟨?_, hm, hcur, ?_⟩
  · rw [ha]
    exact he.2
  · unfold isFinished
    rw [if_pos hfin]
    cases callUpdateIfFinished <;> rfl

/-- C12 at a concrete input: the example agent, in no building, starts a
`GotoBuilding` mission for "HQ" that allows the teleporter. -/
theorem start_teleport_enters_building_witness :
    (start Example.collaborators (Example.pathFrame true [])).agent.missions
      = teleport (some "HQ") :: Example.agent.missions ∧
    (start Example.collaborators (Example.pathFrame true [])).mission
      = (Example.pathFrame true []).mission ∧
    (start Example.collaborators (Example.pathFrame true [])).agent.currentBuilding
      = some "HQ" ∧
    (isFinished Example.collaborators
      (start Example.collaborators (Example.pathFrame true [])) true).1 = true :=
  start_teleport_enters_building Example.collaborators (Example.pathFrame true []) true
    rfl rfl rfl (fun _ _ => rfl) (fun _ _ _ => ⟨rfl, rfl⟩)

/-- When the teleport check fails only because the mission does not allow the
teleporter, the agent is outside the footprint and a path is already planned,
`start` still runs on into the `Teleport` case. -/
theorem start_runs_into_teleport_case (env : Collaborators) (c : Frame)
    (hty : c.mission.type = MissionType.GotoBuilding)
    (hallow : c.mission.allowTeleporter = false)
    (hout : (c.state.buildings c.mission.targetBuilding).boundsWithin
      c.agent.position.x c.agent.position.y = false)
    (hpath : c.mission.currentPlannedPath.isEmpty = false) :
    start env c =
      { c with
        state := (startTeleportCase env c.state c.mission.targetBuilding c.agent).1,
        agent := (startTeleportCase env c.state c.mission.targetBuilding c.agent).2 } := by
  unfold start teleportCheck
  simp only [hty, hallow, Bool.false_and, Bool.false_eq_true, if_false, hout, hpath]

/-- C13 at the failing input: a `GotoBuilding` mission for "HQ" that does not
allow the teleporter and has a path planned, for an agent that can teleport
and stands outside the footprint of "HQ".  The teleport check fails, and
still `start` puts the agent into "HQ" and plays the teleport sample. -/
theorem start_teleports_without_permission :
    (teleportCheck Example.collaborators Example.gameState
      (Example.pathFrame false [⟨0, 0, 0⟩, ⟨1, 0, 0⟩]).mission Example.agent).1 = false ∧
    (Example.gameState.buildings (some "HQ")).boundsWithin
      Example.agent.position.x Example.agent.position.y = false ∧
    Example.agent.currentBuilding = none ∧
    (start Example.collaborators
      (Example.pathFrame false [⟨0, 0, 0⟩, ⟨1, 0, 0⟩])).agent.currentBuilding = some "HQ" ∧
    (start Example.collaborators
      (Example.pathFrame false [⟨0, 0, 0⟩, ⟨1, 0, 0⟩])).state.playedSamples = [⟨0, 0, 0⟩] ∧
    (start Example.collaborators
      (Example.pathFrame false [⟨0, 0, 0⟩, ⟨1, 0, 0⟩])).mission
      = (Example.pathFrame false [⟨0, 0, 0⟩, ⟨1, 0, 0⟩]).mission := by
  have h := start_runs_into_teleport_case Example.collaborators
    (Example.pathFrame false [⟨0, 0, 0⟩, ⟨1, 0, 0⟩]) rfl rfl rfl rfl
  refine ⟨rfl, rfl, rfl, ?_, ?_, ?_⟩
  · rw [h]
    rfl
  · rw [h]
    rfl
  · rw [h]

end AgentMission

namespace RawMusicLoader

/-! ## Raw music tracks: theorems -/

/-- The bounds check of line 91 lets through exactly the indices `0..35`. -/
theorem trackOutOfBounds_eq_false_iff (track : Int) :
    trackOutOfBounds track = false ↔ asIndex track ≤ 35 := by
  unfold trackOutOfBounds
  have hlen : lengths.length = 35 := rfl
  rw [hlen]
  simp

/-- An index below 35 is a valid subscript of both tables. -/
theorem tables_defined_below (i : Nat) (h : i < 35) :
    (∃ len, lengths[i]? = some len) ∧ (∃ start, starts[i]? = some start) := by
  have hl : i < lengths.length := h
  have hs : i < starts.length := h
  exact ⟨⟨_, List.getElem?_eq_getElem hl⟩, ⟨_, List.getElem?_eq_getElem hs⟩⟩

/-- C23 at the failing input: track number 35 is not rejected by the bounds
check, although both tables have 35 entries, indexed `0..34`; the subscripts
`lengths[35]` and `starts[35]` are outside the tables, and `loadMusic` on the
path `MUSIC:35` with a file that opens has no defined result. -/
theorem loadMusic_track_35_past_tables :
    trackOutOfBounds 35 = false ∧
    lengths.length = 35 ∧ starts.length = 35 ∧
    lengths[asIndex 35]? = none ∧ starts[asIndex 35]? = none ∧
    loadMusic ["MUSIC", "35"] (fun _ => true) (fun _ => 35) (fun _ => some 700000000) = none := by
  decide

end RawMusicLoader

namespace AgentMission

/-! ## Path advancement: what a result implies -/

theorem canShortcutTo_true_inv (map : TileMap) (tFrom : Tile) (wp : Vec3)
    (h : canShortcutTo map tFrom wp = some true) :
    wp = tFrom.position ∨
    (withinOne tFrom.position wp = true ∧ ∃ tile, map.getTile wp = some tile ∧
      AgentTileHelper.canEnterTileFlag map (some tFrom) (some tile) 0 = some true) := by
  unfold canShortcutTo at h
  by_cases he : tFrom.position = wp
  · exact Or.inl he.symm
  · rw [if_neg he] at h
    by_cases hnear : withinOne tFrom.position wp = true
    · rw [if_pos hnear] at h
      cases hget : map.getTile wp with
      | none => simp [hget] at h
      | some tile =>
        simp only [hget] at h
        exact Or.inr ⟨hnear, tile, rfl, h⟩
    · rw [if_neg hnear] at h
      cases h

theorem canShortcutTo_false_inv (map : TileMap) (tFrom : Tile) (wp : Vec3)
    (h : canShortcutTo map tFrom wp = some false) :
    wp ≠ tFrom.position ∧
    (withinOne tFrom.position wp = false ∨ ∃ tile, map.getTile wp = some tile ∧
      AgentTileHelper.canEnterTileFlag map (some tFrom) (some tile) 0 = some false) := by
  unfold canShortcutTo at h
  by_cases he : tFrom.position = wp
  · rw [if_pos he] at h
    cases h
  · rw [if_neg he] at h
    refine ⟨fun e => he e.symm, ?_⟩
    by_cases hnear : withinOne tFrom.position wp = true
    · rw [if_pos hnear] at h
      cases hget : map.getTile wp with
      | none => simp [hget] at h
      | some tile =>
        simp only [hget] at h
        exact Or.inr ⟨tile, rfl, h⟩
    · left
      simpa using hnear

theorem headInvalid_false_inv (map : TileMap) (tFrom tTo : Tile) (pos : Vec3)
    (h : headInvalid map tFrom tTo pos = some false) :
    pos = tFrom.position ∨
    (withinOne tFrom.position pos = true ∧
      AgentTileHelper.canEnterTileFlag map (some tFrom) (some tTo) 0 = some true) := by
  unfold headInvalid at h
  by_cases he : tFrom.position = pos
  · exact Or.inl he.symm
  · rw [if_neg he] at h
    by_cases hfar : farApart tFrom.position pos = true
    · rw [if_pos hfar] at h
      cases h
    · rw [if_neg hfar] at h
      have hnear : withinOne tFrom.position pos = true := by
        rw [farApart_eq_not_withinOne] at hfar
        simpa using hfar
      cases hflag : AgentTileHelper.canEnterTileFlag map (some tFrom) (some tTo) 0 with
      | none => simp [hflag] at h
      | some ok =>
        cases ok with
        | false => simp [hflag] at h
        | true => exact Or.inr ⟨hnear, rfl⟩

/-- The shortcut scan only drops waypoints from the front: what it returns is
a suffix of the path it was given; the waypoint it stops on is the head it
started with or one that satisfied the loop condition; and the waypoint after
it, if any, failed the loop condition. -/
theorem shortcutScan_spec (map : TileMap) (tFrom : Tile) :
    ∀ (rest : List Vec3) (pos final : Vec3) (tail : List Vec3),
      shortcutScan map tFrom pos rest = some (final, tail) →
      (∃ skipped, pos :: rest = skipped ++ final :: tail) ∧
      (final = pos ∨ canShortcutTo map tFrom final = some true) ∧
      (∀ nxt more, tail = nxt :: more → canShortcutTo map tFrom nxt = some false) := by
  intro rest
  induction rest with
  | nil =>
    intro pos final tail h
    simp only [shortcutScan, Option.some.injEq, Prod.mk.injEq] at h
    obtain ⟨h1, h2⟩ := h
    subst h1
    subst h2
    exact ⟨⟨[], rfl⟩, Or.inl rfl, fun nxt more hm => by cases hm⟩
  | cons wp rest ih =>
    intro pos final tail h
    cases hw : canShortcutTo map tFrom wp with
    | none => simp [shortcutScan, hw] at h
    | some ok =>
      cases ok with
      | true =>
        simp only [shortcutScan, hw] at h
        obtain ⟨⟨skipped, hsk⟩, hfin, hnext⟩ := ih wp final tail h
        refine ⟨⟨pos :: skipped, by rw [List.cons_append, ← hsk]⟩, ?_, hnext⟩
        rcases hfin with hfin | hfin
        · right
          rw [hfin]
          exact hw
        · exact Or.inr hfin
      | false =>
        simp only [shortcutScan, hw, Option.some.injEq, Prod.mk.injEq] at h
        obtain ⟨h1, h2⟩ := h
        subst h1
        subst h2
        refine ⟨⟨[], rfl⟩, Or.inl rfl, fun nxt more hm => ?_⟩
        cases hm
        exact hw

/-- A call that reports a destination has popped the front waypoint, found the
new head reachable and run the shortcut scan to its end. -/
theorem advanceAlongPath_destination_inv (env : Collaborators) (c : Frame) (d : Vec3f)
    (c1 : Frame) (h : advanceAlongPath env c = some (some d, c1)) :
    ∃ (p0 pos : Vec3) (rest : List Vec3) (tFrom tTo : Tile) (final : Vec3) (tail : List Vec3),
      c.mission.currentPlannedPath = p0 :: pos :: rest ∧
      c.agent.city.map.getTile c.agent.position = some tFrom ∧
      c.agent.city.map.getTile pos = some tTo ∧
      headInvalid c.agent.city.map tFrom tTo pos = some false ∧
      shortcutScan c.agent.city.map tFrom pos rest = some (final, tail) ∧
      d = tileCentre final ∧
      c1 = { c with mission := { c.mission with currentPlannedPath := final :: tail } } := by
  unfold advanceAlongPath at h
  cases hp : c.mission.currentPlannedPath with
  | nil =>
    simp only [hp] at h
    cases h
  | cons p0 popped =>
    cases popped with
    | nil =>
      simp only [hp] at h
      cases h
    | cons pos rest =>
      simp only [hp] at h
      cases hf : c.agent.city.map.getTile c.agent.position with
      | none => simp [hf] at h
      | some tFrom =>
        cases ht : c.agent.city.map.getTile pos with
        | none => simp [hf, ht] at h
        | some tTo =>
          cases hi : headInvalid c.agent.city.map tFrom tTo pos with
          | none => simp [hf, ht, hi] at h
          | some bad =>
            cases bad with
            | true =>
              simp only [hf, ht, hi] at h
              cases h
            | false =>
              cases hs : shortcutScan c.agent.city.map tFrom pos rest with
              | none => simp [hf, ht, hi, hs] at h
              | some res =>
                obtain ⟨final, tail⟩ := res
                simp only [hf, ht, hi, hs, Option.some.injEq, Prod.mk.injEq] at h
                exact ⟨p0, pos, rest, tFrom, tTo, final, tail, rfl, rfl, ht, hi, hs,
                  h.1.symm, h.2.symm⟩

/-- C21: whenever `advanceAlongPath` reports a destination, the planned path
afterwards is non-empty, the destination is the centre of its front waypoint
(the waypoint plus a half on every axis), that waypoint is the agent's tile
or at most one cell away from it on every axis and enterable from it, and
the waypoint after the front, if there is one, is neither the agent's tile
nor directly reachable from it.  Nothing but the planned path is changed. -/
theorem advanceAlongPath_destination (env : Collaborators) (c : Frame) (d : Vec3f)
    (c1 : Frame) (h : advanceAlongPath env c = some (some d, c1)) :
    ∃ (front : Vec3) (tail : List Vec3) (tFrom : Tile),
      c1 = { c with mission := { c.mission with currentPlannedPath := front :: tail } } ∧
      d = ⟨(front.x : ℚ) + 1 / 2, (front.y : ℚ) + 1 / 2, (front.z : ℚ) + 1 / 2⟩ ∧
      c.agent.city.map.getTile c.agent.position = some tFrom ∧
      (front = tFrom.position ∨
        (withinOne tFrom.position front = true ∧
          ∃ tile, c.agent.city.map.getTile front = some tile ∧
            AgentTileHelper.canEnterTileFlag c.agent.city.map (some tFrom) (some tile) 0
              = some true)) ∧
      (∀ nxt more, tail = nxt :: more →
        nxt ≠ tFrom.position ∧
        (withinOne tFrom.position nxt = false ∨
          ∃ tile, c.agent.city.map.getTile nxt = some tile ∧
            AgentTileHelper.canEnterTileFlag c.agent.city.map (some tFrom) (some tile) 0
              = some false)) := by
  obtain ⟨p0, pos, rest, tFrom, tTo, final, tail, _, hf, ht, hi, hs, hd, hc⟩ :=
    advanceAlongPath_destination_inv env c d c1 h
  obtain ⟨_, hfin, hnext⟩ := shortcutScan_spec _ tFrom rest pos final tail hs
  refine ⟨final, tail, tFrom, hc, hd, hf, ?_, ?_⟩
  · rcases hfin with hfin | hfin
    · subst hfin
      rcases headInvalid_false_inv _ tFrom tTo final hi with h1 | ⟨h1, h2⟩
      · exact Or.inl h1
      · exact Or.inr ⟨h1, tTo, ht, h2⟩
    · exact canShortcutTo_true_inv _ tFrom final hfin
  · intro nxt more hm
    exact canShortcutTo_false_inv _ tFrom nxt (hnext nxt more hm)

/-- When the new head is found reachable the call reports the centre of the
waypoint the shortcut scan stops on and leaves the path from there on. -/
theorem advanceAlongPath_of_scan (env : Collaborators) (c : Frame) (p0 pos : Vec3)
    (rest : List Vec3) (tFrom tTo : Tile) (final : Vec3) (tail : List Vec3)
    (hpath : c.mission.currentPlannedPath = p0 :: pos :: rest)
    (hfrom : c.agent.city.map.getTile c.agent.position = some tFrom)
    (hto : c.agent.city.map.getTile pos = some tTo)
    (hhead : headInvalid c.agent.city.map tFrom tTo pos = some false)
    (hscan : shortcutScan c.agent.city.map tFrom pos rest = some (final, tail)) :
    advanceAlongPath env c = some (some (tileCentre final),
      { c with mission := { c.mission with currentPlannedPath := final :: tail } }) := by
  unfold advanceAlongPath
  simp only [hpath, hfrom, hto, hhead, hscan]

/-- C21 at a concrete input: the agent stands on the junction at the origin, the
path repeats that tile before the tube to the east and the diagonal
neighbour; the destination reported is the centre of the tube,
`(1.5, 0.5, 0.5)`. -/
theorem advanceAlongPath_destination_witness :
    ∃ (front : Vec3) (tail : List Vec3) (tFrom : Tile),
      Example.pathFrame false [⟨1, 0, 0⟩, ⟨1, 1, 0⟩]
        = { Example.pathFrame false [⟨0, 0, 0⟩, ⟨0, 0, 0⟩, ⟨1, 0, 0⟩, ⟨1, 1, 0⟩] with
            mission :=
              { (Example.pathFrame false
                  [⟨0, 0, 0⟩, ⟨0, 0, 0⟩, ⟨1, 0, 0⟩, ⟨1, 1, 0⟩]).mission with
                currentPlannedPath := front :: tail } } ∧
      (⟨3 / 2, 1 / 2, 1 / 2⟩ : Vec3f)
        = ⟨(front.x : ℚ) + 1 / 2, (front.y : ℚ) + 1 / 2, (front.z : ℚ) + 1 / 2⟩ ∧
      Example.map.getTile ⟨0, 0, 0⟩ = some tFrom ∧
      (front = tFrom.position ∨
        (withinOne tFrom.position front = true ∧
          ∃ tile, Example.map.getTile front = some tile ∧
            AgentTileHelper.canEnterTileFlag Example.map (some tFrom) (some tile) 0
              = some true)) ∧
      (∀ nxt more, tail = nxt :: more →
        nxt ≠ tFrom.position ∧
        (withinOne tFrom.position nxt = false ∨
          ∃ tile, Example.map.getTile nxt = some tile ∧
            AgentTileHelper.canEnterTileFlag Example.map (some tFrom) (some tile) 0
              = some false)) :=
  advanceAlongPath_destination Example.collaborators
    (Example.pathFrame false [⟨0, 0, 0⟩, ⟨0, 0, 0⟩, ⟨1, 0, 0⟩, ⟨1, 1, 0⟩])
    ⟨3 / 2, 1 / 2, 1 / 2⟩ (Example.pathFrame false [⟨1, 0, 0⟩, ⟨1, 1, 0⟩])
    (tileCentre_east ▸ advanceAlongPath_of_scan Example.collaborators
      (Example.pathFrame false [⟨0, 0, 0⟩, ⟨0, 0, 0⟩, ⟨1, 0, 0⟩, ⟨1, 1, 0⟩])
      ⟨0, 0, 0⟩ ⟨0, 0, 0⟩ [⟨1, 0, 0⟩, ⟨1, 1, 0⟩]
      (Example.tileAt ⟨0, 0, 0⟩) (Example.tileAt ⟨0, 0, 0⟩) ⟨1, 0, 0⟩ [⟨1, 1, 0⟩]
      rfl rfl rfl (by decide) (by decide))

/-! ## Path advancement: termination and the suffix property -/

/-- On tiles whose destination scenery stands on the map `canEnterTile` always
has a result. -/
theorem canEnterTile_defined (map : TileMap) (f t : Tile) (cost : Int)
    (hs : ∀ s, firstScenery t.ownedObjects = some s →
      map.tileIsValid s.currentPosition = true) :
    ∃ r, AgentTileHelper.canEnterTile map (some f) (some t) cost = some r := by
  unfold AgentTileHelper.canEnterTile
  simp only
  by_cases h1 : f.position = t.position
  · rw [if_pos h1]; exact ⟨_, rfl⟩
  · rw [if_neg h1]
    by_cases h2 : (!map.tileIsValid t.position) = true
    · rw [if_pos h2]; exact ⟨_, rfl⟩
    · rw [if_neg h2]
      by_cases h3 : intAbs (t.position - f.position).x + intAbs (t.position - f.position).y +
          intAbs (t.position - f.position).z > 1
      · rw [if_pos h3]; exact ⟨_, rfl⟩
      · rw [if_neg h3]
        have hstep := AgentTileHelper.isUnitStep_of_abs_le _ _ h1 h3
        obtain ⟨d, hd⟩ := AgentTileHelper.convertDirection_of_isUnitStep _ hstep
        have hopp := AgentTileHelper.convertDirection_neg _ hstep d hd
        cases hF : firstScenery f.ownedObjects with
        | none => exact ⟨_, rfl⟩
        | some sF =>
          cases hT : firstScenery t.ownedObjects with
          | none => exact ⟨_, rfl⟩
          | some sT =>
            simp only
            by_cases h4 : (sF.damaged || sT.damaged || sF.falling || sT.falling) = true
            · rw [if_pos h4]; exact ⟨_, rfl⟩
            · rw [if_neg h4, hd, hopp, AgentTileHelper.isMoveAllowed_fin,
                AgentTileHelper.isMoveAllowed_fin]
              cases AgentTileHelper.isTraversalAllowedSpec sF d with
              | false => exact ⟨_, rfl⟩
              | true =>
                cases AgentTileHelper.isTraversalAllowedSpec sT (AgentTileHelper.opposite d) with
                | false => exact ⟨_, rfl⟩
                | true =>
                  simp only
                  split_ifs
                  · exact ⟨_, rfl⟩
                  · have hv := hs sT hT
                    simp only [TileMap.tileIsValid, Bool.and_eq_true, decide_eq_true_eq] at hv
                    obtain ⟨⟨⟨⟨⟨hx0, hx1⟩, hy0⟩, hy1⟩, hz0⟩, _⟩ := hv
                    rcases AgentTileHelper.junctionScan_spec map _ sT.currentPosition
                      (le_refl _) hx0 hx1 hy0 hy1 (by omega) with ⟨hj, _⟩ | ⟨hj, _⟩
                    · rw [hj]; exact ⟨_, rfl⟩
                    · rw [hj]; exact ⟨_, rfl⟩
                  · exact ⟨_, rfl⟩

theorem canEnterTileFlag_defined (map : TileMap) (f t : Tile) (cost : Int)
    (hs : ∀ s, firstScenery t.ownedObjects = some s →
      map.tileIsValid s.currentPosition = true) :
    ∃ b, AgentTileHelper.canEnterTileFlag map (some f) (some t) cost = some b := by
  obtain ⟨r, hr⟩ := canEnterTile_defined map f t cost hs
  unfold AgentTileHelper.canEnterTileFlag
  rw [hr]
  exact ⟨r.1, rfl⟩

theorem getTile_of_valid (map : TileMap) (p : Vec3) (h : map.tileIsValid p = true) :
    map.getTile p = some (map.tiles p) := by
  unfold TileMap.getTile
  rw [if_pos h]

theorem canShortcutTo_defined (map : TileMap) (tFrom : Tile) (wp : Vec3)
    (hmap : map.sceneryOnMap) (hv : map.tileIsValid wp = true) :
    ∃ b, canShortcutTo map tFrom wp = some b := by
  unfold canShortcutTo
  split_ifs
  · exact ⟨_, rfl⟩
  · rw [getTile_of_valid map wp hv]
    exact canEnterTileFlag_defined map tFrom (map.tiles wp) 0 (fun s hs => hmap wp s hv hs)
  · exact ⟨_, rfl⟩

theorem headInvalid_defined (map : TileMap) (tFrom : Tile) (pos : Vec3)
    (hmap : map.sceneryOnMap) (hv : map.tileIsValid pos = true) :
    ∃ b, headInvalid map tFrom (map.tiles pos) pos = some b := by
  unfold headInvalid
  split_ifs
  · exact ⟨_, rfl⟩
  · exact ⟨_, rfl⟩
  · obtain ⟨b, hb⟩ := canEnterTileFlag_defined map tFrom (map.tiles pos) 0
      (fun s hs => hmap pos s hv hs)
    rw [hb]
    exact ⟨_, rfl⟩

/-- The shortcut loop ends with a result on every path whose waypoints are on
the map. -/
theorem shortcutScan_defined (map : TileMap) (tFrom : Tile) (hmap : map.sceneryOnMap) :
    ∀ (rest : List Vec3) (pos : Vec3), (∀ p ∈ rest, map.tileIsValid p = true) →
      ∃ r, shortcutScan map tFrom pos rest = some r := by
  intro rest
  induction rest with
  | nil =>
    intro pos _
    exact ⟨_, rfl⟩
  | cons wp rest ih =>
    intro pos hv
    obtain ⟨b, hb⟩ := canShortcutTo_defined map tFrom wp hmap
      (hv wp (List.mem_cons_self wp rest))
    cases b with
    | true =>
      obtain ⟨r, hr⟩ := ih wp (fun p hp => hv p (List.mem_cons_of_mem wp hp))
      exact ⟨r, by simp only [shortcutScan, hb, hr]⟩
    | false => exact ⟨(pos, wp :: rest), by simp only [shortcutScan, hb]⟩

/-- With the agent and the waypoints on a map whose scenery stands on the map,
`advanceAlongPath` always ends with a result. -/
theorem advanceAlongPath_defined (env : Collaborators) (c : Frame)
    (hmap : c.agent.city.map.sceneryOnMap)
    (hagent : c.agent.city.map.tileIsValid c.agent.position = true)
    (hway : ∀ p ∈ c.mission.currentPlannedPath, c.agent.city.map.tileIsValid p = true) :
    ∃ r, advanceAlongPath env c = some r := by
  unfold advanceAlongPath
  cases hp : c.mission.currentPlannedPath with
  | nil => exact ⟨_, rfl⟩
  | cons p0 popped =>
    cases popped with
    | nil => exact ⟨_, rfl⟩
    | cons pos rest =>
      rw [hp] at hway
      have hvpos : c.agent.city.map.tileIsValid pos = true :=
        hway pos (List.mem_cons_of_mem p0 (List.mem_cons_self pos rest))
      have hvrest : ∀ p ∈ rest, c.agent.city.map.tileIsValid p = true :=
        fun p hp1 => hway p (List.mem_cons_of_mem p0 (List.mem_cons_of_mem pos hp1))
      obtain ⟨bad, hbad⟩ := headInvalid_defined c.agent.city.map
        (c.agent.city.map.tiles c.agent.position) pos hmap hvpos
      obtain ⟨res, hres⟩ := shortcutScan_defined c.agent.city.map
        (c.agent.city.map.tiles c.agent.position) hmap rest pos hvrest
      simp only [getTile_of_valid _ _ hagent, getTile_of_valid _ _ hvpos, hbad]
      cases bad with
      | true => exact ⟨_, rfl⟩
      | false =>
        simp only [hres]
        exact ⟨_, rfl⟩

/-- Whatever `advanceAlongPath` returns on a non-empty planned path, the path
left is the old one with a non-empty run of waypoints dropped from the front. -/
theorem advanceAlongPath_suffix (env : Collaborators) (c : Frame)
    (r : Option Vec3f × Frame) (h : advanceAlongPath env c = some r)
    (hne : c.mission.currentPlannedPath ≠ []) :
    ∃ skipped, skipped ≠ [] ∧
      c.mission.currentPlannedPath = skipped ++ r.2.mission.currentPlannedPath := by
  unfold advanceAlongPath at h
  cases hp : c.mission.currentPlannedPath with
  | nil => exact absurd hp hne
  | cons p0 popped =>
    cases popped with
    | nil =>
      simp only [hp] at h
      cases h
      exact ⟨[p0], by simp, rfl⟩
    | cons pos rest =>
      simp only [hp] at h
      cases hf : c.agent.city.map.getTile c.agent.position with
      | none => simp [hf] at h
      | some tFrom =>
        cases ht : c.agent.city.map.getTile pos with
        | none => simp [hf, ht] at h
        | some tTo =>
          cases hi : headInvalid c.agent.city.map tFrom tTo pos with
          | none => simp [hf, ht, hi] at h
          | some bad =>
            cases bad with
            | true =>
              simp only [hf, ht, hi] at h
              cases h
              exact ⟨p0 :: pos :: rest, by simp, by simp⟩
            | false =>
              cases hs : shortcutScan c.agent.city.map tFrom pos rest with
              | none => simp [hf, ht, hi, hs] at h
              | some res =>
                obtain ⟨final, tail⟩ := res
                simp only [hf, ht, hi, hs] at h
                cases h
                obtain ⟨⟨skipped, hsk⟩, _, _⟩ :=
                  shortcutScan_spec _ tFrom rest pos final tail hs
                refine ⟨p0 :: skipped, by simp, ?_⟩
                show p0 :: pos :: rest = (p0 :: skipped) ++ final :: tail
                rw [List.cons_append, ← hsk]

/-- C22: on every non-empty planned path, whatever `advanceAlongPath` returns,
the planned path left is a proper suffix of the original one: some waypoints,
at least one, are dropped from the front and the rest is kept as it was, in
order (possibly nothing is left).  The function always ends with a result
when the agent and the waypoints are on a map whose scenery stands on the
map: the shortcut loop drops a waypoint on every round. -/
theorem advanceAlongPath_proper_suffix (env : Collaborators) (c : Frame)
    (hne : c.mission.currentPlannedPath ≠ []) :
    (∀ r, advanceAlongPath env c = some r →
      ∃ skipped, skipped ≠ [] ∧
        c.mission.currentPlannedPath = skipped ++ r.2.mission.currentPlannedPath ∧
        r.2.mission.currentPlannedPath.length < c.mission.currentPlannedPath.length) ∧
    (c.agent.city.map.sceneryOnMap →
      c.agent.city.map.tileIsValid c.agent.position = true →
      (∀ p ∈ c.mission.currentPlannedPath, c.agent.city.map.tileIsValid p = true) →
      ∃ r, advanceAlongPath env c = some r) := by
  constructor
  · intro r hr
    obtain ⟨skipped, hsk, hpath⟩ := advanceAlongPath_suffix env c r hr hne
    refine ⟨skipped, hsk, hpath, ?_⟩
    have hlen : 0 < skipped.length := List.length_pos.mpr hsk
    have := congrArg List.length hpath
    rw [List.length_append] at this
    omega
  · exact advanceAlongPath_defined env c

/-- The scenery of the example map stands on the map. -/
theorem example_map_sceneryOnMap : Example.map.sceneryOnMap := by
  intro p s _ h
  have hobj : (Example.map.tiles p).ownedObjects = Example.objects p := rfl
  rw [hobj] at h
  unfold Example.objects at h
  split_ifs at h <;> simp only [firstScenery, Option.some.injEq] at h <;>
    first
    | (subst h; decide)
    | cases h

/-- C22 at a concrete input: on the example map, with the agent on the junction
at the origin and the path through the tube to the east, the call has a
result and the path left is the old one without its first waypoint. -/
theorem advanceAlongPath_proper_suffix_witness :
    (∃ skipped, skipped ≠ [] ∧
      (Example.pathFrame false [⟨0, 0, 0⟩, ⟨1, 0, 0⟩, ⟨1, 1, 0⟩]).mission.currentPlannedPath
        = skipped ++ [⟨1, 0, 0⟩, ⟨1, 1, 0⟩] ∧
      ([⟨1, 0, 0⟩, ⟨1, 1, 0⟩] : List Vec3).length
        < (Example.pathFrame false
            [⟨0, 0, 0⟩, ⟨1, 0, 0⟩, ⟨1, 1, 0⟩]).mission.currentPlannedPath.length) ∧
    (∃ r, advanceAlongPath Example.collaborators
      (Example.pathFrame false [⟨0, 0, 0⟩, ⟨1, 0, 0⟩, ⟨1, 1, 0⟩]) = some r) :=
  have h := advanceAlongPath_proper_suffix Example.collaborators
    (Example.pathFrame false [⟨0, 0, 0⟩, ⟨1, 0, 0⟩, ⟨1, 1, 0⟩]) (by decide)
  ⟨h.1 (some (tileCentre ⟨1, 0, 0⟩), Example.pathFrame false [⟨1, 0, 0⟩, ⟨1, 1, 0⟩])
      (advanceAlongPath_of_scan Example.collaborators
        (Example.pathFrame false [⟨0, 0, 0⟩, ⟨1, 0, 0⟩, ⟨1, 1, 0⟩])
        ⟨0, 0, 0⟩ ⟨1, 0, 0⟩ [⟨1, 1, 0⟩]
        (Example.tileAt ⟨0, 0, 0⟩) (Example.tileAt ⟨1, 0, 0⟩) ⟨1, 0, 0⟩ [⟨1, 1, 0⟩]
        rfl rfl rfl (by decide) (by decide)),
   h.2 example_map_sceneryOnMap (by decide) (by decide)⟩

end AgentMission

end OpenApoc
